import Mathlib

/-!
Shallow embedding of the SOF (Statement of Facts) parsing core of the
AquaBot repository (backend/app/agents/sof_parser.py), together with
theorems settling the frozen claims about it.

Modelling conventions:
* Python floats are modelled as exact rationals (ℚ); all quantities the
  claims mention are reachable with exact arithmetic.
* Python `datetime` values (minute resolution here: every strptime format
  used by the source ends at minutes) are a civil date plus hour/minute;
  subtraction goes through a proleptic-Gregorian ordinal, exactly as
  Python computes timedeltas.
* Python dicts whose keys are conditionally set are modelled as structures
  of `Option` fields: a missing key and a key set to `None` are both
  `none` (the source only ever reads these keys with `.get`, which cannot
  distinguish the two).
* The regex engine used by `_extract_sof_data` is external to the source
  (the `re` module); extraction is therefore parameterised by an oracle
  `Findall` giving, per pattern and text, the list of `re.findall`
  results.  The per-pattern regexes used by `_parse_laytime` and
  `_parse_cargo_quantity` are small enough to be embedded directly as
  character-list matchers equivalent to the backtracking search on those
  concrete patterns.
* `datetime.now()` in `parse_sof_document` is injected as an explicit
  `now` argument: the wall clock is the single impure input of the
  pipeline.
-/

namespace AquaBot

/-! ## Civil datetimes (Python `datetime` at minute resolution) -/

/-- Civil datetime with minute resolution, as produced by Python
`datetime.strptime` on the formats the source tries (all end at minutes;
date-only formats default hour and minute to 0). -/
structure DateTime where
  year : Nat
  month : Nat
  day : Nat
  hour : Nat
  minute : Nat
deriving DecidableEq

/-- Gregorian leap-year test, as in Python's `calendar.isleap`. -/
def isLeapYear (y : Nat) : Bool :=
  (y % 4 == 0 && y % 100 != 0) || y % 400 == 0

/-- Cumulative day counts before each month in a non-leap year. -/
def cumDaysBeforeMonth : List Nat :=
  [0, 31, 59, 90, 120, 151, 181, 212, 243, 273, 304, 334]

/-- Days in the given month (1-12) of the given year. -/
def daysInMonth (y m : Nat) : Nat :=
  [31, if isLeapYear y then 29 else 28,
   31, 30, 31, 30, 31, 31, 30, 31, 30, 31].getD (m - 1) 0

/-- Number of days strictly before month `m` in year `y`. -/
def daysBeforeMonth (y m : Nat) : Nat :=
  cumDaysBeforeMonth.getD (m - 1) 0 + (if 2 < m && isLeapYear y then 1 else 0)

/-- Proleptic-Gregorian ordinal of a civil date, as Python's
`datetime.date.toordinal` (0001-01-01 is day 1).  Python datetime
subtraction is exactly the difference of these ordinals plus the
time-of-day difference. -/
def toOrdinal (y m d : Nat) : Nat :=
  365 * (y - 1) + (y - 1) / 4 - (y - 1) / 100 + (y - 1) / 400
    + daysBeforeMonth y m + d

/-- Minutes since the (proleptic-Gregorian) epoch of a datetime. -/
def toOffsetMinutes (dt : DateTime) : Int :=
  (toOrdinal dt.year dt.month dt.day : Int) * 1440
    + (dt.hour : Int) * 60 + (dt.minute : Int)

/-- Elapsed hours between two datetimes:
`(departure - nor).total_seconds() / 3600` of the source, in exact
rational arithmetic. -/
def hoursBetween (nor dep : DateTime) : ℚ :=
  (((toOffsetMinutes dep - toOffsetMinutes nor) * 60 : Int) : ℚ) / 3600

/-! ## Character-level helpers for the embedded regex fragments -/

/-- Python `\s` character class (the six ASCII whitespace characters). -/
def isSpaceChar (c : Char) : Bool :=
  c == ' ' || c == '\t' || c == '\n' || c == '\r' || c == '\x0b' || c == '\x0c'

/-- Numeric value of a decimal digit character. -/
def digitVal (c : Char) : Nat := c.toNat - 48

/-- Value of a list of decimal digit characters. -/
def natOfDigits (ds : List Char) : Nat :=
  ds.foldl (fun a c => a * 10 + digitVal c) 0

/-- Python `str.strip()` (strips the six ASCII whitespace characters from
both ends). -/
def pyStrip (s : String) : String :=
  ⟨((s.data.dropWhile isSpaceChar).reverse.dropWhile isSpaceChar).reverse⟩

/-- Greedy `[0-9]+`: the leading run of digits (at least one) and the
rest of the input. -/
def matchDigits1 (cs : List Char) : Option (List Char × List Char) :=
  let ds := cs.takeWhile Char.isDigit
  if ds.isEmpty then none else some (ds, cs.dropWhile Char.isDigit)

/-- Greedy `[0-9]+(?:\.[0-9]+)?` at the start of the input: the matched
characters and the rest.  For this pattern greedy matching never needs
backtracking (digits, the dot and the characters that may follow the
number are pairwise disjoint). -/
def matchNumberTok (cs : List Char) : Option (List Char × List Char) :=
  match matchDigits1 cs with
  | none => none
  | some (ds, rest) =>
    match rest with
    | [] => some (ds, [])
    | r :: rest2 =>
      if r = '.' then
        match matchDigits1 rest2 with
        | some (fs, rest3) => some (ds ++ '.' :: fs, rest3)
        | none => some (ds, r :: rest2)
      else some (ds, r :: rest2)

/-- Rational value of a matched number token (`digits` or
`digits.digits`), i.e. Python `float()` on it, idealised to ℚ. -/
def floatValQ (cs : List Char) : ℚ :=
  let intPart := cs.takeWhile Char.isDigit
  match cs.dropWhile Char.isDigit with
  | [] => (natOfDigits intPart : ℚ)
  | r :: fs =>
    if r = '.' then (natOfDigits intPart : ℚ) + (natOfDigits fs : ℚ) / ((10 : ℚ) ^ fs.length)
    else (natOfDigits intPart : ℚ)

/-- Strip `pat` (already lowercase) from the front of `cs`,
case-insensitively. -/
def stripCI : List Char → List Char → Option (List Char)
  | [], cs => some cs
  | _ :: _, [] => none
  | p :: ps, c :: cs => if c.toLower = p then stripCI ps cs else none

/-- The alternation `hours?|days?` of `_parse_laytime`, case-insensitive,
at the start of the input.  Returns whether the matched unit contains
"day" (`"day" in unit` on the lowered group is exactly: the day branch
matched) and the rest of the input. -/
def matchUnitTok (cs : List Char) : Option (Bool × List Char) :=
  match stripCI ['h', 'o', 'u', 'r'] cs with
  | some rest => some (false, (stripCI ['s'] rest).getD rest)
  | none =>
    match stripCI ['d', 'a', 'y'] cs with
    | some rest => some (true, (stripCI ['s'] rest).getD rest)
    | none => none

/-- One attempt of `([0-9]+(?:\.[0-9]+)?)\s*(hours?|days?)` anchored at
the start of the input: the number token and the day/hour flag. -/
def laytimeMatchAt (cs : List Char) : Option (List Char × Bool) :=
  match matchNumberTok cs with
  | none => none
  | some (num, rest) =>
    match matchUnitTok (rest.dropWhile isSpaceChar) with
    | some (isDay, _) => some (num, isDay)
    | none => none

/-- `re.search` of the laytime pattern: leftmost position whose anchored
attempt succeeds. -/
def laytimeSearch : List Char → Option (List Char × Bool)
  | [] => none
  | c :: cs =>
    match laytimeMatchAt (c :: cs) with
    | some r => some r
    | none => laytimeSearch cs

/-- `_parse_laytime` of the source: search the string for
`([0-9]+(?:\.[0-9]+)?)\s*(hours?|days?)` (IGNORECASE); on a match, the
number, multiplied by 24 when the unit contains "day"; otherwise `None`.
Total — the `except` branch of the source is unreachable for it. -/
def parseLaytime (s : String) : Option ℚ :=
  match laytimeSearch s.data with
  | some (num, isDay) => some (if isDay then floatValQ num * 24 else floatValQ num)
  | none => none

/-- Characters of the class `[0-9,]`. -/
def isCargoChar (c : Char) : Bool := c.isDigit || c == ','

/-- One attempt of `([0-9,]+(?:\.[0-9]+)?)` anchored at the start. -/
def cargoMatchAt (cs : List Char) : Option (List Char) :=
  let run := cs.takeWhile isCargoChar
  if run.isEmpty then none
  else
    match cs.dropWhile isCargoChar with
    | [] => some run
    | r :: rest2 =>
      if r = '.' then
        match matchDigits1 rest2 with
        | some (fs, _) => some (run ++ '.' :: fs)
        | none => some run
      else some run

/-- `re.search` of the cargo-quantity pattern. -/
def cargoSearch : List Char → Option (List Char)
  | [] => none
  | c :: cs =>
    match cargoMatchAt (c :: cs) with
    | some r => some r
    | none => cargoSearch cs

/-- `_parse_cargo_quantity` of the source: search for
`([0-9,]+(?:\.[0-9]+)?)`, strip commas, `float()` the remainder.  A
group consisting solely of commas strips to the empty string, on which
Python `float` raises and the `except` branch returns `None`. -/
def parseCargoQuantity (s : String) : Option ℚ :=
  match cargoSearch s.data with
  | none => none
  | some g =>
    let cleaned := g.filter (fun c => c ≠ ',')
    if cleaned.isEmpty then none else some (floatValQ cleaned)

/-! ## Datetime parsing (`_parse_datetime`) -/

/-- strptime `%d`: two digits if they read 01-31, else one digit 1-9
(the alternation `3[01]|[12]\d|0[1-9]|[1-9]`). -/
def matchDay : List Char → Option (Nat × List Char)
  | [] => none
  | [a] => if a.isDigit && decide (1 ≤ digitVal a) then some (digitVal a, []) else none
  | a :: b :: rest =>
    if a.isDigit then
      if b.isDigit && decide (1 ≤ digitVal a * 10 + digitVal b)
          && decide (digitVal a * 10 + digitVal b ≤ 31) then
        some (digitVal a * 10 + digitVal b, rest)
      else if decide (1 ≤ digitVal a) then some (digitVal a, b :: rest)
      else none
    else none

/-- strptime `%m`: two digits if they read 01-12, else one digit 1-9. -/
def matchMonth : List Char → Option (Nat × List Char)
  | [] => none
  | [a] => if a.isDigit && decide (1 ≤ digitVal a) then some (digitVal a, []) else none
  | a :: b :: rest =>
    if a.isDigit then
      if b.isDigit && decide (1 ≤ digitVal a * 10 + digitVal b)
          && decide (digitVal a * 10 + digitVal b ≤ 12) then
        some (digitVal a * 10 + digitVal b, rest)
      else if decide (1 ≤ digitVal a) then some (digitVal a, b :: rest)
      else none
    else none

/-- strptime `%H`: two digits if they read 00-23, else one digit. -/
def matchHour : List Char → Option (Nat × List Char)
  | [] => none
  | [a] => if a.isDigit then some (digitVal a, []) else none
  | a :: b :: rest =>
    if a.isDigit then
      if b.isDigit && decide (digitVal a * 10 + digitVal b ≤ 23) then
        some (digitVal a * 10 + digitVal b, rest)
      else some (digitVal a, b :: rest)
    else none

/-- strptime `%M`: two digits if they read 00-59, else one digit. -/
def matchMinute : List Char → Option (Nat × List Char)
  | [] => none
  | [a] => if a.isDigit then some (digitVal a, []) else none
  | a :: b :: rest =>
    if a.isDigit then
      if b.isDigit && decide (digitVal a * 10 + digitVal b ≤ 59) then
        some (digitVal a * 10 + digitVal b, rest)
      else some (digitVal a, b :: rest)
    else none

/-- strptime `%Y`: exactly four digits. -/
def matchYear4 : List Char → Option (Nat × List Char)
  | a :: b :: c :: d :: rest =>
    if a.isDigit && b.isDigit && c.isDigit && d.isDigit then
      some (natOfDigits [a, b, c, d], rest)
    else none
  | _ => none

/-- strptime `%y`: exactly two digits; 00-68 maps to 2000-2068 and
69-99 to 1969-1999, as CPython does. -/
def matchYear2 : List Char → Option (Nat × List Char)
  | a :: b :: rest =>
    if a.isDigit && b.isDigit then
      let v := digitVal a * 10 + digitVal b
      some (if v ≤ 68 then 2000 + v else 1900 + v, rest)
    else none
  | _ => none

/-- A literal character of a strptime format. -/
def matchLit (ch : Char) : List Char → Option (List Char)
  | c :: rest => if c = ch then some rest else none
  | [] => none

/-- Whitespace in a strptime format matches one or more whitespace
characters of the input (CPython replaces format whitespace by `\s+`). -/
def matchSpaces1 : List Char → Option (List Char)
  | c :: rest => if isSpaceChar c then some (rest.dropWhile isSpaceChar) else none
  | [] => none

/-- Which of the two year directives a format uses. -/
inductive YearStyle
  | y4
  | y2
deriving DecidableEq

/-- One of the source's strptime formats: separator, field order
(`ymd = true` only for `%Y-%m-%d`), year style, and whether the
`", %H:%M"` tail is present. -/
structure DTFormat where
  sep : Char
  ymd : Bool
  ys : YearStyle
  withTime : Bool
deriving DecidableEq

/-- The ten formats `_parse_datetime` tries, in source order: five
date+time formats, then the same five dates without time. -/
def dtFormats : List DTFormat :=
  [⟨'/', false, .y4, true⟩, ⟨'-', false, .y4, true⟩, ⟨'-', true, .y4, true⟩,
   ⟨'/', false, .y2, true⟩, ⟨'-', false, .y2, true⟩,
   ⟨'/', false, .y4, false⟩, ⟨'-', false, .y4, false⟩, ⟨'-', true, .y4, false⟩,
   ⟨'/', false, .y2, false⟩, ⟨'-', false, .y2, false⟩]

/-- Match the date part of a format: day-sep-month-sep-year, or
year-sep-month-sep-day for the `ymd` format. -/
def matchDatePart (f : DTFormat) (cs : List Char) : Option (Nat × Nat × Nat × List Char) :=
  if f.ymd then
    match matchYear4 cs with
    | none => none
    | some (y, r1) =>
      match matchLit f.sep r1 with
      | none => none
      | some r2 =>
        match matchMonth r2 with
        | none => none
        | some (m, r3) =>
          match matchLit f.sep r3 with
          | none => none
          | some r4 =>
            match matchDay r4 with
            | none => none
            | some (d, r5) => some (y, m, d, r5)
  else
    match matchDay cs with
    | none => none
    | some (d, r1) =>
      match matchLit f.sep r1 with
      | none => none
      | some r2 =>
        match matchMonth r2 with
        | none => none
        | some (m, r3) =>
          match matchLit f.sep r3 with
          | none => none
          | some r4 =>
            let yearMatch := match f.ys with
              | .y4 => matchYear4 r4
              | .y2 => matchYear2 r4
            match yearMatch with
            | none => none
            | some (y, r5) => some (y, m, d, r5)

/-- Match the `", %H:%M"` tail: a literal comma, whitespace, hour,
colon, minute. -/
def matchTimePart (cs : List Char) : Option (Nat × Nat × List Char) :=
  match matchLit ',' cs with
  | none => none
  | some r1 =>
    match matchSpaces1 r1 with
    | none => none
    | some r2 =>
      match matchHour r2 with
      | none => none
      | some (h, r3) =>
        match matchLit ':' r3 with
        | none => none
        | some r4 =>
          match matchMinute r4 with
          | none => none
          | some (mi, r5) => some (h, mi, r5)

/-- Run one strptime format against the whole string: the match must
consume all input ("unconverted data remains" otherwise), and the
`datetime` constructor validates the day against the month length and
the year against MINYEAR = 1. -/
def runDTFormat (f : DTFormat) (cs : List Char) : Option DateTime :=
  match matchDatePart f cs with
  | none => none
  | some (y, m, d, r) =>
    let finish : Nat → Nat → List Char → Option DateTime := fun h mi rest =>
      if rest.isEmpty && decide (1 ≤ y) && decide (1 ≤ d) && decide (d ≤ daysInMonth y m) then
        some ⟨y, m, d, h, mi⟩
      else none
    if f.withTime then
      match matchTimePart r with
      | none => none
      | some (h, mi, r2) => finish h mi r2
    else finish 0 0 r

/-- `_parse_datetime` of the source: try the ten formats in order;
`None` when all fail.  Total — the logged `except` branch is
unreachable. -/
def parseDatetime (s : String) : Option DateTime :=
  dtFormats.findSome? (fun f => runDTFormat f s.data)

/-! ## Pattern extraction (`_extract_sof_data`) -/

/-- One `re.findall` result: a plain string for single-group patterns, a
tuple of captured groups for multi-group ones. -/
inductive MatchRes
  | single (s : String)
  | tuple (groups : List String)
deriving DecidableEq

/-- The regex engine is an external collaborator: an oracle mapping a
pattern source and a text to the `re.findall(pattern, text, IGNORECASE)`
result list. -/
def Findall : Type := String → String → List MatchRes

/-- Patterns for each field, verbatim from the source's `sof_patterns`
table (regex braces written with escapes). -/
def vesselNamePatterns : List String :=
  ["vessel[:\\s]+([A-Za-z\\s\\-]+?)(?:\\n|$)",
   "m/v\\s+([A-Za-z\\s\\-]+?)(?:\\n|$)",
   "m\\.v\\.\\s+([A-Za-z\\s\\-]+?)(?:\\n|$)",
   "ship[:\\s]+([A-Za-z\\s\\-]+?)(?:\\n|$)"]

def voyageNumberPatterns : List String :=
  ["voyage[:\\s]+([A-Za-z0-9\\s\\-]+?)(?:\\n|$)",
   "voy\\s+([A-Za-z0-9\\s\\-]+?)(?:\\n|$)",
   "voyage\\s+no[:\\s]+([A-Za-z0-9\\s\\-]+?)(?:\\n|$)"]

def arrivalTimePatterns : List String :=
  ["arrival[:\\s]+([0-9]\x7b1,2\x7d[/\\-][0-9]\x7b1,2\x7d[/\\-][0-9]\x7b2,4\x7d[,\\s]+[0-9]\x7b1,2\x7d:[0-9]\x7b2\x7d)",
   "arrived[:\\s]+([0-9]\x7b1,2\x7d[/\\-][0-9]\x7b1,2\x7d[/\\-][0-9]\x7b2,4\x7d[,\\s]+[0-9]\x7b1,2\x7d:[0-9]\x7b2\x7d)",
   "eta[:\\s]+([0-9]\x7b1,2\x7d[/\\-][0-9]\x7b1,2\x7d[/\\-][0-9]\x7b2,4\x7d[,\\s]+[0-9]\x7b1,2\x7d:[0-9]\x7b2\x7d)"]

def departureTimePatterns : List String :=
  ["departure[:\\s]+([0-9]\x7b1,2\x7d[/\\-][0-9]\x7b1,2\x7d[/\\-][0-9]\x7b2,4\x7d[,\\s]+[0-9]\x7b1,2\x7d:[0-9]\x7b2\x7d)",
   "departed[:\\s]+([0-9]\x7b1,2\x7d[/\\-][0-9]\x7b1,2\x7d[/\\-][0-9]\x7b2,4\x7d[,\\s]+[0-9]\x7b1,2\x7d:[0-9]\x7b2\x7d)",
   "etd[:\\s]+([0-9]\x7b1,2\x7d[/\\-][0-9]\x7b1,2\x7d[/\\-][0-9]\x7b2,4\x7d[,\\s]+[0-9]\x7b1,2\x7d:[0-9]\x7b2\x7d)"]

def norTimePatterns : List String :=
  ["nor[:\\s]+([0-9]\x7b1,2\x7d[/\\-][0-9]\x7b1,2\x7d[/\\-][0-9]\x7b2,4\x7d[,\\s]+[0-9]\x7b1,2\x7d:[0-9]\x7b2\x7d)",
   "notice\\s+of\\s+readiness[:\\s]+([0-9]\x7b1,2\x7d[/\\-][0-9]\x7b1,2\x7d[/\\-][0-9]\x7b2,4\x7d[,\\s]+[0-9]\x7b1,2\x7d:[0-9]\x7b2\x7d)",
   "readiness[:\\s]+([0-9]\x7b1,2\x7d[/\\-][0-9]\x7b1,2\x7d[/\\-][0-9]\x7b2,4\x7d[,\\s]+[0-9]\x7b1,2\x7d:[0-9]\x7b2\x7d)"]

def laytimeAllowedPatterns : List String :=
  ["laytime[:\\s]+([0-9]+(?:\\.[0-9]+)?)\\s*(hours?|days?)",
   "lay\\s+time[:\\s]+([0-9]+(?:\\.[0-9]+)?)\\s*(hours?|days?)",
   "allowed\\s+time[:\\s]+([0-9]+(?:\\.[0-9]+)?)\\s*(hours?|days?)"]

def cargoQuantityPatterns : List String :=
  ["cargo[:\\s]+([0-9,]+(?:\\.[0-9]+)?)\\s*(mt|tons?|metric\\s+tons?)",
   "quantity[:\\s]+([0-9,]+(?:\\.[0-9]+)?)\\s*(mt|tons?|metric\\s+tons?)",
   "loaded[:\\s]+([0-9,]+(?:\\.[0-9]+)?)\\s*(mt|tons?|metric\\s+tons?)",
   "discharged[:\\s]+([0-9,]+(?:\\.[0-9]+)?)\\s*(mt|tons?|metric\\s+tons?)"]

def berthInfoPatterns : List String :=
  ["berth[:\\s]+([A-Za-z0-9\\s\\-]+?)(?:\\n|$)",
   "terminal[:\\s]+([A-Za-z0-9\\s\\-]+?)(?:\\n|$)",
   "quay[:\\s]+([A-Za-z0-9\\s\\-]+?)(?:\\n|$)"]

def portNamePatterns : List String :=
  ["port[:\\s]+([A-Za-z\\s]+?)(?:\\n|$)",
   "at\\s+([A-Za-z\\s]+?)(?:\\n|$)",
   "in\\s+([A-Za-z\\s]+?)(?:\\n|$)"]

/-- Candidates contributed by one `findall` result: a single match is
stripped and kept if nonempty after stripping; a tuple contributes each
group whose stripped form is nonempty, unstripped (the source's
`[m for m in match if m.strip()]`). -/
def candidatesOfMatch : MatchRes → List String
  | .single s => if pyStrip s ≠ "" then [pyStrip s] else []
  | .tuple gs => gs.filter (fun m => pyStrip m ≠ "")

/-- All candidate strings for one field, in extraction order: pattern
order, then match order, then capture-group order. -/
def gatherField (o : Findall) (text : String) (pats : List String) : List String :=
  (pats.map (fun p => ((o p text).map candidatesOfMatch).flatten)).flatten

/-- The source's in-order deduplication loop (`seen` set plus
`unique_matches` list). -/
def dedupAux (seen : List String) : List String → List String
  | [] => []
  | x :: xs => if x ∈ seen then dedupAux seen xs else x :: dedupAux (x :: seen) xs

/-- Extraction of one field: gather all candidates, then remove
duplicates keeping first occurrences. -/
def extractField (o : Findall) (text : String) (pats : List String) : List String :=
  dedupAux [] (gatherField o text pats)

/-- `RawExtraction`: the ordered, de-duplicated candidate lists for the
nine fields of the pattern table. -/
structure RawExtraction where
  vessel_name : List String
  voyage_number : List String
  arrival_time : List String
  departure_time : List String
  nor_time : List String
  laytime_allowed : List String
  cargo_quantity : List String
  berth_info : List String
  port_name : List String
deriving DecidableEq

/-- `_extract_sof_data` of the source. -/
def extractSofData (o : Findall) (text : String) : RawExtraction :=
  { vessel_name := extractField o text vesselNamePatterns
  , voyage_number := extractField o text voyageNumberPatterns
  , arrival_time := extractField o text arrivalTimePatterns
  , departure_time := extractField o text departureTimePatterns
  , nor_time := extractField o text norTimePatterns
  , laytime_allowed := extractField o text laytimeAllowedPatterns
  , cargo_quantity := extractField o text cargoQuantityPatterns
  , berth_info := extractField o text berthInfoPatterns
  , port_name := extractField o text portNamePatterns }

/-! ## Normalisation (`_parse_dates_and_times`) -/

/-- The normalised fields `_parse_dates_and_times` adds to the data
(the raw candidate lists are carried alongside unchanged; a key that is
never set and a key set to `None` are both `none`). -/
structure ParsedData where
  arrival_datetime : Option DateTime
  departure_datetime : Option DateTime
  nor_datetime : Option DateTime
  laytime_hours : Option ℚ
  cargo_mt : Option ℚ
deriving DecidableEq

/-- `_parse_dates_and_times` of the source: each normalised field comes
from the first candidate of its raw list (when the list is nonempty). -/
def parseDatesAndTimes (e : RawExtraction) : ParsedData :=
  { arrival_datetime := e.arrival_time.head?.bind parseDatetime
  , departure_datetime := e.departure_time.head?.bind parseDatetime
  , nor_datetime := e.nor_time.head?.bind parseDatetime
  , laytime_hours := e.laytime_allowed.head?.bind parseLaytime
  , cargo_mt := e.cargo_quantity.head?.bind parseCargoQuantity }

/-! ## Laytime calculation (`_calculate_laytime`) -/

/-- The `calculations` dict of `_calculate_laytime`, with each
conditionally-set key as an `Option`. -/
structure LaytimeCalcs where
  total_time_hours : Option ℚ
  total_time_days : Option ℚ
  laytime_allowed_hours : Option ℚ
  laytime_allowed_days : Option ℚ
  laytime_status : Option String
  time_saved_hours : Option ℚ
  time_saved_days : Option ℚ
  time_exceeded_hours : Option ℚ
  time_exceeded_days : Option ℚ
  cargo_rate_mt_per_hour : Option ℚ
  cargo_rate_mt_per_day : Option ℚ
deriving DecidableEq

/-- The empty `calculations` dict. -/
def emptyCalcs : LaytimeCalcs :=
  { total_time_hours := none
  , total_time_days := none
  , laytime_allowed_hours := none
  , laytime_allowed_days := none
  , laytime_status := none
  , time_saved_hours := none
  , time_saved_days := none
  , time_exceeded_hours := none
  , time_exceeded_days := none
  , cargo_rate_mt_per_hour := none
  , cargo_rate_mt_per_day := none }

/-- `_calculate_laytime` of the source.  Python truthiness: a `None`
datetime is falsy, and a numeric value is falsy exactly when it is zero.
The only exception the body can raise is the float division by zero when
a truthy cargo quantity meets `total_time_hours = 0`; the `except`
branch then discards the dict and returns an error entry, modelled as
`Except.error`.  `total_time_days` is definitionally
`total_time_hours / 24` wherever it is read. -/
def calculateLaytime (pd : ParsedData) : Except String LaytimeCalcs :=
  let c1 : LaytimeCalcs :=
    match pd.nor_datetime, pd.departure_datetime with
    | some nor, some dep =>
      let th := hoursBetween nor dep
      let base := { emptyCalcs with
        total_time_hours := some th, total_time_days := some (th / 24) }
      match pd.laytime_hours with
      | some la =>
        if la ≠ 0 then
          let base2 := { base with
            laytime_allowed_hours := some la, laytime_allowed_days := some (la / 24) }
          if th ≤ la then
            { base2 with laytime_status := some ("within_limit")
                       , time_saved_hours := some (la - th)
                       , time_saved_days := some ((la - th) / 24) }
          else
            { base2 with laytime_status := some ("exceeded")
                       , time_exceeded_hours := some (th - la)
                       , time_exceeded_days := some ((th - la) / 24) }
        else base
      | none => base
    | _, _ => emptyCalcs
  match pd.cargo_mt with
  | some cm =>
    if cm ≠ 0 then
      match c1.total_time_hours with
      | some th =>
        if th = 0 then .error ("Laytime calculation failed: float division by zero")
        else .ok { c1 with cargo_rate_mt_per_hour := some (cm / th)
                         , cargo_rate_mt_per_day := some (cm / (th / 24)) }
      | none => .ok c1
    else .ok c1
  | none => .ok c1

/-- Whether the laytime stage completed without the `except` branch
firing. -/
def isOkCalc : Except String LaytimeCalcs → Bool
  | .ok _ => true
  | .error _ => false

/-- The calculations of a completed laytime stage (the empty dict for
the error case, which carries no calculation keys). -/
def calcsOf : Except String LaytimeCalcs → LaytimeCalcs
  | .ok c => c
  | .error _ => emptyCalcs

/-! ## Financial analysis (`_analyze_financial_implications`) -/

/-- The `financial_analysis` dict, with conditionally-set keys as
`Option` and the always-set rate table and note unconditional. -/
structure FinancialAnalysis where
  despatch_amount_usd : Option ℚ
  despatch_rate_usd_per_day : Option ℚ
  time_saved_days : Option ℚ
  demurrage_amount_usd : Option ℚ
  demurrage_rate_usd_per_day : Option ℚ
  time_exceeded_days : Option ℚ
  financial_impact : Option String
  example_rates_demurrage_usd_per_day : ℚ
  example_rates_despatch_usd_per_day : ℚ
  note : String
deriving DecidableEq

/-- The hard-coded example rate table of the source. -/
def demurrageRateDefault : ℚ := 25000

def despatchRateDefault : ℚ := 12500

/-- The disclaimer string the source attaches to every result. -/
def ratesNote : String :=
  "Rates are examples. Actual rates should be verified from charter party."

/-- `_analyze_financial_implications` of the source, as a function of
the `calculations` dict (the `parsed_data` argument is never read).  The
`laytime_status` key is present exactly when the calculator classified;
`.get("time_saved_days", 0)` and `.get("time_exceeded_days", 0)` are
`Option.getD _ 0`. -/
def analyzeFinancialImplications (calcs : LaytimeCalcs) : FinancialAnalysis :=
  let base : FinancialAnalysis :=
    { despatch_amount_usd := none
    , despatch_rate_usd_per_day := none
    , time_saved_days := none
    , demurrage_amount_usd := none
    , demurrage_rate_usd_per_day := none
    , time_exceeded_days := none
    , financial_impact := none
    , example_rates_demurrage_usd_per_day := demurrageRateDefault
    , example_rates_despatch_usd_per_day := despatchRateDefault
    , note := ratesNote }
  match calcs.laytime_status with
  | some status =>
    if status = "within_limit" then
      let tsd := calcs.time_saved_days.getD 0
      { base with despatch_amount_usd := some (tsd * despatchRateDefault)
                , despatch_rate_usd_per_day := some despatchRateDefault
                , time_saved_days := some tsd
                , financial_impact := some ("positive") }
    else if status = "exceeded" then
      let ted := calcs.time_exceeded_days.getD 0
      { base with demurrage_amount_usd := some (ted * demurrageRateDefault)
                , demurrage_rate_usd_per_day := some demurrageRateDefault
                , time_exceeded_days := some ted
                , financial_impact := some ("negative") }
    else base
  | none => base

/-- The financial stage applied to the laytime stage's outcome: the
error dict of a failed laytime calculation has no `laytime_status` key,
so it is read exactly like an empty calculations dict. -/
def analyzeFinancialOfResult : Except String LaytimeCalcs → FinancialAnalysis
  | .ok c => analyzeFinancialImplications c
  | .error _ => analyzeFinancialImplications emptyCalcs

/-! ## Confidence scoring (`_calculate_confidence_score`) -/

/-- The nine candidate lists in the fixed insertion order of the pattern
table. -/
def fieldLists (e : RawExtraction) : List (List String) :=
  [e.vessel_name, e.voyage_number, e.arrival_time, e.departure_time,
   e.nor_time, e.laytime_allowed, e.cargo_quantity, e.berth_info, e.port_name]

/-- Python `round(x, 2)` idealised over ℚ.  Python rounds ties to even;
for every value this scorer can produce, `x * 100` is never a
half-integer (it is `100k/9 + 20j/3` capped at `100`), so half-up
rounding coincides with it on all reachable inputs. -/
def round2 (x : ℚ) : ℚ := ((round (x * 100) : ℤ) : ℚ) / 100

/-- `_calculate_confidence_score` of the source. -/
def calculateConfidenceScore (e : RawExtraction) : ℚ :=
  let fieldsWithData := ((fieldLists e).filter (fun l => !l.isEmpty)).length
  let totalFields := (fieldLists e).length
  let baseConfidence : ℚ :=
    if 0 < totalFields then (fieldsWithData : ℚ) / (totalFields : ℚ) else 0
  let criticalPresent :=
    ([e.vessel_name, e.arrival_time, e.departure_time].filter (fun l => !l.isEmpty)).length
  let criticalConfidence : ℚ := (criticalPresent : ℚ) / 3 * (2 / 10)
  round2 (min (baseConfidence + criticalConfidence) 1)

/-! ## The parse entry point (`parse_sof_document`) -/

/-- The result dict of `parse_sof_document`. -/
structure ParseResult where
  filename : String
  extracted_data : RawExtraction
  parsed_data : ParsedData
  laytime_calculations : Except String LaytimeCalcs
  financial_analysis : FinancialAnalysis
  analysis_timestamp : String
  confidence_score : ℚ

deriving instance DecidableEq for Except

deriving instance DecidableEq for ParseResult

/-- `parse_sof_document` of the source, on already-decoded text (the
byte decoding and the PyMuPDF PDF fallback are external collaborators;
with `fitz = None`, as when the import fails, the fallback is skipped
entirely).  `datetime.now().isoformat()` is injected as the `now`
argument — it is the only input besides the text, the filename and the
pattern table that the result depends on. -/
def parseSofDocument (o : Findall) (text : String) (filename : String)
    (now : String) : ParseResult :=
  let extracted := extractSofData o text
  let parsed := parseDatesAndTimes extracted
  let laytime := calculateLaytime parsed
  { filename := filename
  , extracted_data := extracted
  , parsed_data := parsed
  , laytime_calculations := laytime
  , financial_analysis := analyzeFinancialOfResult laytime
  , analysis_timestamp := now
  , confidence_score := calculateConfidenceScore extracted }

/-! ## Shared lemmas about the laytime calculator -/

/-- Complete description of `_calculate_laytime` when NOR, departure and
a truthy (nonzero) allowance are all present and the zero-division
corner (truthy cargo with zero elapsed time) is avoided. -/
theorem calcLaytime_classified_spec (pd : ParsedData) (nor dep : DateTime) (la : ℚ)
    (hnor : pd.nor_datetime = some nor) (hdep : pd.departure_datetime = some dep)
    (hla : pd.laytime_hours = some la) (hla0 : la ≠ 0)
    (hsafe : pd.cargo_mt = none ∨ pd.cargo_mt = some 0 ∨ hoursBetween nor dep ≠ 0) :
    isOkCalc (calculateLaytime pd) = true ∧
    (calcsOf (calculateLaytime pd)).total_time_hours = some (hoursBetween nor dep) ∧
    (calcsOf (calculateLaytime pd)).total_time_days = some (hoursBetween nor dep / 24) ∧
    (calcsOf (calculateLaytime pd)).laytime_allowed_hours = some la ∧
    (calcsOf (calculateLaytime pd)).laytime_allowed_days = some (la / 24) ∧
    (hoursBetween nor dep ≤ la →
      (calcsOf (calculateLaytime pd)).laytime_status = some ("within_limit") ∧
      (calcsOf (calculateLaytime pd)).time_saved_hours = some (la - hoursBetween nor dep) ∧
      (calcsOf (calculateLaytime pd)).time_saved_days = some ((la - hoursBetween nor dep) / 24) ∧
      (calcsOf (calculateLaytime pd)).time_exceeded_hours = none ∧
      (calcsOf (calculateLaytime pd)).time_exceeded_days = none) ∧
    (¬ hoursBetween nor dep ≤ la →
      (calcsOf (calculateLaytime pd)).laytime_status = some ("exceeded") ∧
      (calcsOf (calculateLaytime pd)).time_exceeded_hours = some (hoursBetween nor dep - la) ∧
      (calcsOf (calculateLaytime pd)).time_exceeded_days = some ((hoursBetween nor dep - la) / 24) ∧
      (calcsOf (calculateLaytime pd)).time_saved_hours = none ∧
      (calcsOf (calculateLaytime pd)).time_saved_days = none) := by
  by_cases hle : hoursBetween nor dep ≤ la
  · rcases hsafe with hc | hc | hth
    · refine ⟨?_, ?_, ?_, ?_, ?_, fun _ => ?_, fun h => absurd hle h⟩ <;>
        simp [calculateLaytime, hnor, hdep, hla, hc, hla0, hle, isOkCalc, calcsOf, emptyCalcs]
    · refine ⟨?_, ?_, ?_, ?_, ?_, fun _ => ?_, fun h => absurd hle h⟩ <;>
        simp [calculateLaytime, hnor, hdep, hla, hc, hla0, hle, isOkCalc, calcsOf, emptyCalcs]
    · cases hcm : pd.cargo_mt with
      | none =>
        refine ⟨?_, ?_, ?_, ?_, ?_, fun _ => ?_, fun h => absurd hle h⟩ <;>
          simp [calculateLaytime, hnor, hdep, hla, hcm, hla0, hle, isOkCalc, calcsOf, emptyCalcs]
      | some cm =>
        by_cases hcm0 : cm = 0
        · refine ⟨?_, ?_, ?_, ?_, ?_, fun _ => ?_, fun h => absurd hle h⟩ <;>
            simp [calculateLaytime, hnor, hdep, hla, hcm, hcm0, hla0, hle, isOkCalc, calcsOf, emptyCalcs]
        · refine ⟨?_, ?_, ?_, ?_, ?_, fun _ => ?_, fun h => absurd hle h⟩ <;>
            simp [calculateLaytime, hnor, hdep, hla, hcm, hcm0, hla0, hle, hth, isOkCalc, calcsOf, emptyCalcs]
  · rcases hsafe with hc | hc | hth
    · refine ⟨?_, ?_, ?_, ?_, ?_, fun h => absurd h hle, fun _ => ?_⟩ <;>
        simp [calculateLaytime, hnor, hdep, hla, hc, hla0, hle, isOkCalc, calcsOf, emptyCalcs]
    · refine ⟨?_, ?_, ?_, ?_, ?_, fun h => absurd h hle, fun _ => ?_⟩ <;>
        simp [calculateLaytime, hnor, hdep, hla, hc, hla0, hle, isOkCalc, calcsOf, emptyCalcs]
    · cases hcm : pd.cargo_mt with
      | none =>
        refine ⟨?_, ?_, ?_, ?_, ?_, fun h => absurd h hle, fun _ => ?_⟩ <;>
          simp [calculateLaytime, hnor, hdep, hla, hcm, hla0, hle, isOkCalc, calcsOf, emptyCalcs]
      | some cm =>
        by_cases hcm0 : cm = 0
        · refine ⟨?_, ?_, ?_, ?_, ?_, fun h => absurd h hle, fun _ => ?_⟩ <;>
            simp [calculateLaytime, hnor, hdep, hla, hcm, hcm0, hla0, hle, isOkCalc, calcsOf, emptyCalcs]
        · refine ⟨?_, ?_, ?_, ?_, ?_, fun h => absurd h hle, fun _ => ?_⟩ <;>
            simp [calculateLaytime, hnor, hdep, hla, hcm, hcm0, hla0, hle, hth, isOkCalc, calcsOf, emptyCalcs]

/-- Cargo-rate part of `_calculate_laytime`: with NOR and departure
present, a truthy cargo quantity and a nonzero elapsed time, both rates
are attached, whatever the allowance and the classification. -/
theorem calcLaytime_cargo_spec (pd : ParsedData) (nor dep : DateTime) (cm : ℚ)
    (hnor : pd.nor_datetime = some nor) (hdep : pd.departure_datetime = some dep)
    (hcm : pd.cargo_mt = some cm) (hcm0 : cm ≠ 0) (hth : hoursBetween nor dep ≠ 0) :
    isOkCalc (calculateLaytime pd) = true ∧
    (calcsOf (calculateLaytime pd)).cargo_rate_mt_per_hour = some (cm / hoursBetween nor dep) ∧
    (calcsOf (calculateLaytime pd)).cargo_rate_mt_per_day = some (cm / (hoursBetween nor dep / 24)) := by
  cases hlay : pd.laytime_hours with
  | none =>
    refine ⟨?_, ?_, ?_⟩ <;>
      simp [calculateLaytime, hnor, hdep, hlay, hcm, hcm0, hth, isOkCalc, calcsOf, emptyCalcs]
  | some la =>
    by_cases hla0 : la = 0
    · refine ⟨?_, ?_, ?_⟩ <;>
        simp [calculateLaytime, hnor, hdep, hlay, hla0, hcm, hcm0, hth, isOkCalc, calcsOf, emptyCalcs]
    · by_cases hle : hoursBetween nor dep ≤ la
      · refine ⟨?_, ?_, ?_⟩ <;>
          simp [calculateLaytime, hnor, hdep, hlay, hla0, hle, hcm, hcm0, hth, isOkCalc, calcsOf, emptyCalcs]
      · refine ⟨?_, ?_, ?_⟩ <;>
          simp [calculateLaytime, hnor, hdep, hlay, hla0, hle, hcm, hcm0, hth, isOkCalc, calcsOf, emptyCalcs]

/-- Complete description of `_calculate_laytime` when NOR and departure
are present but the allowance is falsy (absent or zero) and the
zero-division corner is avoided: the total is reported, nothing is
classified. -/
theorem calcLaytime_unclassified_spec (pd : ParsedData) (nor dep : DateTime)
    (hnor : pd.nor_datetime = some nor) (hdep : pd.departure_datetime = some dep)
    (hla : pd.laytime_hours = none ∨ pd.laytime_hours = some 0)
    (hsafe : pd.cargo_mt = none ∨ pd.cargo_mt = some 0 ∨ hoursBetween nor dep ≠ 0) :
    isOkCalc (calculateLaytime pd) = true ∧
    (calcsOf (calculateLaytime pd)).total_time_hours = some (hoursBetween nor dep) ∧
    (calcsOf (calculateLaytime pd)).laytime_status = none := by
  rcases hla with hla | hla <;>
  · rcases hsafe with hc | hc | hth
    · refine ⟨?_, ?_, ?_⟩ <;>
        simp [calculateLaytime, hnor, hdep, hla, hc, isOkCalc, calcsOf, emptyCalcs]
    · refine ⟨?_, ?_, ?_⟩ <;>
        simp [calculateLaytime, hnor, hdep, hla, hc, isOkCalc, calcsOf, emptyCalcs]
    · cases hcm : pd.cargo_mt with
      | none =>
        refine ⟨?_, ?_, ?_⟩ <;>
          simp [calculateLaytime, hnor, hdep, hla, hcm, isOkCalc, calcsOf, emptyCalcs]
      | some cm =>
        by_cases hcm0 : cm = 0
        · refine ⟨?_, ?_, ?_⟩ <;>
            simp [calculateLaytime, hnor, hdep, hla, hcm, hcm0, isOkCalc, calcsOf, emptyCalcs]
        · refine ⟨?_, ?_, ?_⟩ <;>
            simp [calculateLaytime, hnor, hdep, hla, hcm, hcm0, hth, isOkCalc, calcsOf,
              emptyCalcs]

/-- A reversed interval (departure before NOR) yields a negative elapsed
hour count. -/
theorem hoursBetween_neg (nor dep : DateTime)
    (h : toOffsetMinutes dep < toOffsetMinutes nor) : hoursBetween nor dep < 0 := by
  unfold hoursBetween
  apply div_neg_of_neg_of_pos
  · have hd : (toOffsetMinutes dep - toOffsetMinutes nor) * 60 < 0 :=
      mul_neg_of_neg_of_pos (by omega) (by norm_num)
    exact_mod_cast hd
  · norm_num

/-! ## Claim C1 -/

/-- Concrete input for C1's counterexample: NOR equal to departure
(elapsed 0 h), a 24 h allowance, 1000 t of cargo. -/
def pdC1err : ParsedData :=
  { arrival_datetime := none
  , departure_datetime := some ⟨2024, 3, 1, 8, 0⟩
  , nor_datetime := some ⟨2024, 3, 1, 8, 0⟩
  , laytime_hours := some 24
  , cargo_mt := some 1000 }

/-- C1, counterexample to the claim as stated: with `nor_time`,
`departure_time` and `laytime_allowed_hours = 24` all present but the
elapsed time zero and a cargo quantity present, the source's cargo-rate
division by zero makes `_calculate_laytime` return its error dict:
`total_hours` is never set and no WithinLimit/Exceeded classification is
produced (the claim demands WithinLimit with `saved_hours = 24` here). -/
theorem c1_zero_division_counterexample :
    calculateLaytime pdC1err = .error ("Laytime calculation failed: float division by zero") ∧
    isOkCalc (calculateLaytime pdC1err) = false ∧
    (calcsOf (calculateLaytime pdC1err)).total_time_hours = none ∧
    (calcsOf (calculateLaytime pdC1err)).laytime_status = none := by
  have h : calculateLaytime pdC1err
      = .error ("Laytime calculation failed: float division by zero") := by
    norm_num [calculateLaytime, pdC1err, hoursBetween, toOffsetMinutes, toOrdinal,
      daysBeforeMonth, cumDaysBeforeMonth, isLeapYear, emptyCalcs]
  exact ⟨h, by rw [h]; rfl, by rw [h]; rfl, by rw [h]; rfl⟩

/-- C1 (amended): when `nor_time`, `departure_time` and a nonzero
`laytime_allowed_hours` are present (a zero allowance is Python-falsy
and treated as absent), and the calculation completes — i.e. unless a
nonzero cargo quantity meets an elapsed time of exactly zero hours, in
which case the division by zero replaces the whole result with an
error — `total_hours` is the elapsed (possibly fractional, here exact
rational) hours from NOR to departure, and the outcome is
`within_limit` with `saved_hours = allowed - total` when
`total_hours ≤ allowed`, else `exceeded` with
`exceeded_hours = total - allowed`. -/
theorem c1_laytime_classification (pd : ParsedData) (nor dep : DateTime) (la : ℚ)
    (hnor : pd.nor_datetime = some nor) (hdep : pd.departure_datetime = some dep)
    (hla : pd.laytime_hours = some la) (hpos : 0 < la)
    (hsafe : pd.cargo_mt = none ∨ pd.cargo_mt = some 0 ∨ hoursBetween nor dep ≠ 0) :
    isOkCalc (calculateLaytime pd) = true ∧
    (calcsOf (calculateLaytime pd)).total_time_hours = some (hoursBetween nor dep) ∧
    (hoursBetween nor dep ≤ la →
      (calcsOf (calculateLaytime pd)).laytime_status = some ("within_limit") ∧
      (calcsOf (calculateLaytime pd)).time_saved_hours = some (la - hoursBetween nor dep)) ∧
    (la < hoursBetween nor dep →
      (calcsOf (calculateLaytime pd)).laytime_status = some ("exceeded") ∧
      (calcsOf (calculateLaytime pd)).time_exceeded_hours = some (hoursBetween nor dep - la)) := by
  obtain ⟨hok, htot, _, _, _, hwl, hex⟩ :=
    calcLaytime_classified_spec pd nor dep la hnor hdep hla (ne_of_gt hpos) hsafe
  exact ⟨hok, htot,
    fun h => ⟨(hwl h).1, (hwl h).2.1⟩,
    fun h => ⟨(hex (not_le.mpr h)).1, (hex (not_le.mpr h)).2.1⟩⟩

/-- Concrete input realising the claim's example: NOR 2024-03-01 08:00,
departure 2024-03-02 14:00, 24 h allowance, no cargo. -/
def pdC1 : ParsedData :=
  { arrival_datetime := none
  , departure_datetime := some ⟨2024, 3, 2, 14, 0⟩
  , nor_datetime := some ⟨2024, 3, 1, 8, 0⟩
  , laytime_hours := some 24
  , cargo_mt := none }

/-- C1 witness: the amended theorem applied to the claim's own
example — 30 elapsed hours against a 24 h allowance yields `exceeded`
with `exceeded_hours = 6`. -/
theorem c1_laytime_classification_witness :
    (0 : ℚ) < 24 ∧
    isOkCalc (calculateLaytime pdC1) = true ∧
    (calcsOf (calculateLaytime pdC1)).total_time_hours = some 30 ∧
    (calcsOf (calculateLaytime pdC1)).laytime_status = some ("exceeded") ∧
    (calcsOf (calculateLaytime pdC1)).time_exceeded_hours = some 6 := by
  have h30 : hoursBetween ⟨2024, 3, 1, 8, 0⟩ ⟨2024, 3, 2, 14, 0⟩ = 30 := by
    norm_num [hoursBetween, toOffsetMinutes, toOrdinal, daysBeforeMonth,
      cumDaysBeforeMonth, isLeapYear]
  obtain ⟨hok, htot, _, hex⟩ :=
    c1_laytime_classification pdC1 ⟨2024, 3, 1, 8, 0⟩ ⟨2024, 3, 2, 14, 0⟩ 24
      rfl rfl rfl (by norm_num) (Or.inl rfl)
  obtain ⟨hst, hhrs⟩ := hex (by rw [h30]; norm_num)
  refine ⟨by norm_num, hok, ?_, hst, ?_⟩
  · rw [htot, h30]
  · rw [hhrs, h30]; norm_num

/-! ## Claim C2 -/

/-- Concrete input for C2: departure 30 h before NOR, 24 h allowance. -/
def pdC2 : ParsedData :=
  { arrival_datetime := none
  , departure_datetime := some ⟨2024, 3, 1, 8, 0⟩
  , nor_datetime := some ⟨2024, 3, 2, 14, 0⟩
  , laytime_hours := some 24
  , cargo_mt := none }

/-- C2, counterexample to the claim as stated: with departure 30 h
earlier than NOR the source reports `total_hours = -30` — a negative
total — and classifies the voyage `within_limit` (since -30 ≤ 24) with
`saved_hours = 54`; nothing resembling an Indeterminate outcome or a
ReversedInterval diagnostic exists in the result. -/
theorem c2_negative_total_counterexample :
    (calcsOf (calculateLaytime pdC2)).total_time_hours = some (-30) ∧
    ((-30 : ℚ) < 0) ∧
    (calcsOf (calculateLaytime pdC2)).laytime_status = some ("within_limit") ∧
    (calcsOf (calculateLaytime pdC2)).time_saved_hours = some 54 := by
  refine ⟨?_, by norm_num, ?_, ?_⟩ <;>
    norm_num [calculateLaytime, pdC2, hoursBetween, toOffsetMinutes, toOrdinal,
      daysBeforeMonth, cumDaysBeforeMonth, isLeapYear, emptyCalcs, calcsOf]

/-- C2 (amended): for every input where `departure_time` is earlier
than `nor_time` the source does not go Indeterminate and records no
diagnostic (it has neither): the negative elapsed value is always
reported as `total_hours`; when the allowance is absent or zero the
status simply stays unset; and whenever a nonzero (reachable values are
positive) allowance is present the result is classified `within_limit`
(a negative total is always ≤ a positive allowance) with
`saved_hours = allowed - total` exceeding the allowance itself. -/
theorem c2_reversed_interval (pd : ParsedData) (nor dep : DateTime)
    (hnor : pd.nor_datetime = some nor) (hdep : pd.departure_datetime = some dep)
    (hrev : toOffsetMinutes dep < toOffsetMinutes nor) :
    hoursBetween nor dep < 0 ∧
    isOkCalc (calculateLaytime pd) = true ∧
    (calcsOf (calculateLaytime pd)).total_time_hours = some (hoursBetween nor dep) ∧
    ((pd.laytime_hours = none ∨ pd.laytime_hours = some 0) →
      (calcsOf (calculateLaytime pd)).laytime_status = none) ∧
    (∀ la : ℚ, pd.laytime_hours = some la → 0 < la →
      (calcsOf (calculateLaytime pd)).laytime_status = some ("within_limit") ∧
      (calcsOf (calculateLaytime pd)).time_saved_hours
        = some (la - hoursBetween nor dep) ∧
      la < la - hoursBetween nor dep) := by
  have hneg := hoursBetween_neg nor dep hrev
  have hth : hoursBetween nor dep ≠ 0 := ne_of_lt hneg
  have hsafe : pd.cargo_mt = none ∨ pd.cargo_mt = some 0 ∨ hoursBetween nor dep ≠ 0 :=
    Or.inr (Or.inr hth)
  have hoktot : isOkCalc (calculateLaytime pd) = true ∧
      (calcsOf (calculateLaytime pd)).total_time_hours = some (hoursBetween nor dep) := by
    cases hlay : pd.laytime_hours with
    | none =>
      obtain ⟨hok, htot, _⟩ :=
        calcLaytime_unclassified_spec pd nor dep hnor hdep (Or.inl hlay) hsafe
      exact ⟨hok, htot⟩
    | some la =>
      by_cases hla0 : la = 0
      · obtain ⟨hok, htot, _⟩ :=
          calcLaytime_unclassified_spec pd nor dep hnor hdep (Or.inr (hla0 ▸ hlay)) hsafe
        exact ⟨hok, htot⟩
      · obtain ⟨hok, htot, _⟩ :=
          calcLaytime_classified_spec pd nor dep la hnor hdep hlay hla0 hsafe
        exact ⟨hok, htot⟩
  refine ⟨hneg, hoktot.1, hoktot.2, ?_, ?_⟩
  · intro hla
    exact (calcLaytime_unclassified_spec pd nor dep hnor hdep hla hsafe).2.2
  · intro la hla hpos
    obtain ⟨_, _, _, _, _, hwl, _⟩ :=
      calcLaytime_classified_spec pd nor dep la hnor hdep hla (ne_of_gt hpos) hsafe
    obtain ⟨hst, hsv, _⟩ := hwl (le_of_lt (lt_trans hneg hpos))
    exact ⟨hst, hsv, by linarith⟩

/-- The same reversed interval as `pdC2` with no allowance at all. -/
def pdC2na : ParsedData :=
  { arrival_datetime := none
  , departure_datetime := some ⟨2024, 3, 1, 8, 0⟩
  , nor_datetime := some ⟨2024, 3, 2, 14, 0⟩
  , laytime_hours := none
  , cargo_mt := none }

/-- C2 witness: the amended theorem applied to the concrete reversed
interval both with a 24 h allowance (total -30 h, `within_limit`,
`saved_hours = 54`) and without one (total -30 h reported, status
unset). -/
theorem c2_reversed_interval_witness :
    hoursBetween ⟨2024, 3, 2, 14, 0⟩ ⟨2024, 3, 1, 8, 0⟩ < 0 ∧
    isOkCalc (calculateLaytime pdC2) = true ∧
    (calcsOf (calculateLaytime pdC2)).laytime_status = some ("within_limit") ∧
    (calcsOf (calculateLaytime pdC2)).time_saved_hours = some 54 ∧
    (calcsOf (calculateLaytime pdC2na)).total_time_hours = some (-30) ∧
    (calcsOf (calculateLaytime pdC2na)).laytime_status = none := by
  have h30 : hoursBetween ⟨2024, 3, 2, 14, 0⟩ ⟨2024, 3, 1, 8, 0⟩ = -30 := by
    norm_num [hoursBetween, toOffsetMinutes, toOrdinal, daysBeforeMonth,
      cumDaysBeforeMonth, isLeapYear]
  have hrev : toOffsetMinutes ⟨2024, 3, 1, 8, 0⟩ < toOffsetMinutes ⟨2024, 3, 2, 14, 0⟩ := by
    norm_num [toOffsetMinutes, toOrdinal, daysBeforeMonth, cumDaysBeforeMonth, isLeapYear]
  obtain ⟨hneg, hok, _, _, hcls⟩ :=
    c2_reversed_interval pdC2 ⟨2024, 3, 2, 14, 0⟩ ⟨2024, 3, 1, 8, 0⟩ rfl rfl hrev
  obtain ⟨hst, hsv, _⟩ := hcls 24 rfl (by norm_num)
  obtain ⟨_, _, htotna, hstna, _⟩ :=
    c2_reversed_interval pdC2na ⟨2024, 3, 2, 14, 0⟩ ⟨2024, 3, 1, 8, 0⟩ rfl rfl hrev
  refine ⟨hneg, hok, hst, ?_, ?_, hstna (Or.inl rfl)⟩
  · rw [hsv, h30]; norm_num
  · rw [htotna, h30]

/-! ## Claim C3 -/

/-- C3, counterexample to the claim as stated: two calls of the parse
entry point with identical text, filename and pattern-matching
behaviour, made at two different clock instants, return results that
are not byte-identical — the `analysis_timestamp` field records
`datetime.now()`.  (The oracle returning no matches is exactly what
`re.findall` does on empty text for every pattern of the table.) -/
theorem c3_timestamp_counterexample :
    parseSofDocument (fun _ _ => []) "" ("sof.txt") ("2024-01-01T00:00:00") ≠
    parseSofDocument (fun _ _ => []) "" ("sof.txt") ("2024-01-01T00:00:01") := by
  intro h
  exact absurd (congrArg ParseResult.analysis_timestamp h) (by decide)

/-- C3 (amended): the parse pipeline is deterministic in everything
except `analysis_timestamp`: for any fixed regex behaviour, text and
filename, every field of the result other than the timestamp is
identical across calls, and the timestamp is exactly the injected clock
reading. -/
theorem c3_determinism_modulo_timestamp (o : Findall) (text filename t1 t2 : String) :
    (parseSofDocument o text filename t1).filename
      = (parseSofDocument o text filename t2).filename ∧
    (parseSofDocument o text filename t1).extracted_data
      = (parseSofDocument o text filename t2).extracted_data ∧
    (parseSofDocument o text filename t1).parsed_data
      = (parseSofDocument o text filename t2).parsed_data ∧
    (parseSofDocument o text filename t1).laytime_calculations
      = (parseSofDocument o text filename t2).laytime_calculations ∧
    (parseSofDocument o text filename t1).financial_analysis
      = (parseSofDocument o text filename t2).financial_analysis ∧
    (parseSofDocument o text filename t1).confidence_score
      = (parseSofDocument o text filename t2).confidence_score ∧
    (parseSofDocument o text filename t1).analysis_timestamp = t1 :=
  ⟨rfl, rfl, rfl, rfl, rfl, rfl, rfl⟩

/-! ## Claim C4 -/

/-- Concrete input for C4: 20 elapsed hours against a 24 h allowance
(4 h saved), no cargo. -/
def pdC4 : ParsedData :=
  { arrival_datetime := none
  , departure_datetime := some ⟨2024, 3, 2, 4, 0⟩
  , nor_datetime := some ⟨2024, 3, 1, 8, 0⟩
  , laytime_hours := some 24
  , cargo_mt := none }

/-- C4, counterexample to the claim as stated: with 4 saved hours and
the default despatch rate the amount is exactly
`(4/24) * 12500 = 6250/3 = 2083.333...`, which is not equal to
`2083.33`; the claimed figure holds only after rounding to 2 decimals
(`round2` of the amount is `2083.33`), and the source does not round. -/
theorem c4_exact_amount_counterexample :
    (analyzeFinancialOfResult (calculateLaytime pdC4)).despatch_amount_usd = some (6250 / 3) ∧
    (6250 / 3 : ℚ) ≠ 2083.33 ∧
    round2 (6250 / 3) = 2083.33 := by
  refine ⟨?_, by norm_num, ?_⟩
  · norm_num [calculateLaytime, pdC4, hoursBetween, toOffsetMinutes, toOrdinal,
      daysBeforeMonth, cumDaysBeforeMonth, isLeapYear, emptyCalcs,
      analyzeFinancialOfResult, analyzeFinancialImplications, despatchRateDefault]
  · rw [round2, show (6250 / 3 : ℚ) * 100 = 625000 / 3 by norm_num,
      round_eq, show (625000 / 3 + 1 / 2 : ℚ) = ((1250003 : ℤ) : ℚ) / ((6 : ℕ) : ℚ) by norm_num,
      Rat.floor_intCast_div_natCast]
    norm_num

/-- C4 (amended): on `exceeded` the financial analysis reports
`demurrage = (exceeded_hours / 24) * 25000` tagged `negative`; on
`within_limit` it reports `despatch = (saved_hours / 24) * 12500`
tagged `positive` (so 4 saved hours give exactly `6250/3 ≈ 2083.33`,
equal to `2083.33` only after rounding to 2 decimals); the specific
rate used accompanies each amount, and every financial result — even an
unclassified one — carries the default rate table 25000/12500 and the
disclaimer note that rates are examples to be verified from the
charter party. -/
theorem c4_financial_analysis (pd : ParsedData) (nor dep : DateTime) (la : ℚ)
    (hnor : pd.nor_datetime = some nor) (hdep : pd.departure_datetime = some dep)
    (hla : pd.laytime_hours = some la) (hpos : 0 < la)
    (hsafe : pd.cargo_mt = none ∨ pd.cargo_mt = some 0 ∨ hoursBetween nor dep ≠ 0) :
    ((hoursBetween nor dep ≤ la →
        (analyzeFinancialOfResult (calculateLaytime pd)).despatch_amount_usd
          = some ((la - hoursBetween nor dep) / 24 * despatchRateDefault) ∧
        (analyzeFinancialOfResult (calculateLaytime pd)).despatch_rate_usd_per_day
          = some despatchRateDefault ∧
        (analyzeFinancialOfResult (calculateLaytime pd)).financial_impact = some ("positive")) ∧
      (¬ hoursBetween nor dep ≤ la →
        (analyzeFinancialOfResult (calculateLaytime pd)).demurrage_amount_usd
          = some ((hoursBetween nor dep - la) / 24 * demurrageRateDefault) ∧
        (analyzeFinancialOfResult (calculateLaytime pd)).demurrage_rate_usd_per_day
          = some demurrageRateDefault ∧
        (analyzeFinancialOfResult (calculateLaytime pd)).financial_impact = some ("negative"))) ∧
    (∀ c : LaytimeCalcs,
      (analyzeFinancialImplications c).example_rates_demurrage_usd_per_day = demurrageRateDefault ∧
      (analyzeFinancialImplications c).example_rates_despatch_usd_per_day = despatchRateDefault ∧
      (analyzeFinancialImplications c).note = ratesNote) ∧
    demurrageRateDefault = 25000 ∧ despatchRateDefault = 12500 := by
  obtain ⟨hok, _, _, _, _, hwl, hex⟩ :=
    calcLaytime_classified_spec pd nor dep la hnor hdep hla (ne_of_gt hpos) hsafe
  have hrates : ∀ c : LaytimeCalcs,
      (analyzeFinancialImplications c).example_rates_demurrage_usd_per_day = demurrageRateDefault ∧
      (analyzeFinancialImplications c).example_rates_despatch_usd_per_day = despatchRateDefault ∧
      (analyzeFinancialImplications c).note = ratesNote := by
    intro c
    cases hs : c.laytime_status with
    | none => refine ⟨?_, ?_, ?_⟩ <;> simp [analyzeFinancialImplications, hs]
    | some s =>
      refine ⟨?_, ?_, ?_⟩ <;> (simp only [analyzeFinancialImplications, hs]; split_ifs <;> rfl)
  cases hcl : calculateLaytime pd with
  | error e => rw [hcl] at hok; simp [isOkCalc] at hok
  | ok c =>
    rw [hcl] at hwl hex
    simp only [calcsOf] at hwl hex
    refine ⟨⟨?_, ?_⟩, hrates, rfl, rfl⟩
    · intro h
      obtain ⟨hst, _, hsd, _, _⟩ := hwl h
      refine ⟨?_, ?_, ?_⟩ <;>
        simp [analyzeFinancialOfResult, hcl, analyzeFinancialImplications, hst, hsd]
    · intro h
      obtain ⟨hst, _, hed, _, _⟩ := hex h
      refine ⟨?_, ?_, ?_⟩ <;>
        simp [analyzeFinancialOfResult, hcl, analyzeFinancialImplications, hst, hed]

/-- C4 witness: the amended theorem applied to the concrete 4-saved-hour
input — despatch amount exactly `6250/3`, rate 12500, impact positive,
note attached. -/
theorem c4_financial_analysis_witness :
    (analyzeFinancialOfResult (calculateLaytime pdC4)).despatch_amount_usd = some (6250 / 3) ∧
    (analyzeFinancialOfResult (calculateLaytime pdC4)).despatch_rate_usd_per_day = some 12500 ∧
    (analyzeFinancialOfResult (calculateLaytime pdC4)).financial_impact = some ("positive") ∧
    (analyzeFinancialOfResult (calculateLaytime pdC4)).note = ratesNote := by
  have h20 : hoursBetween ⟨2024, 3, 1, 8, 0⟩ ⟨2024, 3, 2, 4, 0⟩ = 20 := by
    norm_num [hoursBetween, toOffsetMinutes, toOrdinal, daysBeforeMonth,
      cumDaysBeforeMonth, isLeapYear]
  obtain ⟨⟨hwl, _⟩, hrates, hdem, hdes⟩ :=
    c4_financial_analysis pdC4 ⟨2024, 3, 1, 8, 0⟩ ⟨2024, 3, 2, 4, 0⟩ 24
      rfl rfl rfl (by norm_num) (Or.inl rfl)
  obtain ⟨hamt, hrate, himp⟩ := hwl (by rw [h20]; norm_num)
  have hnote : (analyzeFinancialOfResult (calculateLaytime pdC4)).note = ratesNote := by
    cases hcl : calculateLaytime pdC4 with
    | error e => simp [analyzeFinancialOfResult, (hrates emptyCalcs).2.2]
    | ok c => simp [analyzeFinancialOfResult, (hrates c).2.2]
  refine ⟨?_, ?_, himp, hnote⟩
  · rw [hamt, h20, despatchRateDefault]; norm_num
  · rw [hrate, hdes]

/-! ## Claim C5 -/

/-- C5: with NOR and departure present, a (truthy, i.e. nonzero) cargo
quantity and a positive elapsed time, `_calculate_laytime` attaches
`cargo_rate_mt_per_hour = cargo / total_hours` and
`cargo_rate_mt_per_day = cargo / (total_hours / 24)`, whatever the
allowance and classification (the allowance field of `pd` is entirely
unconstrained here). -/
theorem c5_cargo_rates (pd : ParsedData) (nor dep : DateTime) (cm : ℚ)
    (hnor : pd.nor_datetime = some nor) (hdep : pd.departure_datetime = some dep)
    (hcm : pd.cargo_mt = some cm) (hcm0 : cm ≠ 0)
    (hth : 0 < hoursBetween nor dep) :
    isOkCalc (calculateLaytime pd) = true ∧
    (calcsOf (calculateLaytime pd)).cargo_rate_mt_per_hour = some (cm / hoursBetween nor dep) ∧
    (calcsOf (calculateLaytime pd)).cargo_rate_mt_per_day
      = some (cm / (hoursBetween nor dep / 24)) :=
  calcLaytime_cargo_spec pd nor dep cm hnor hdep hcm hcm0 (ne_of_gt hth)

/-- Concrete input realising the claim's example: 20 elapsed hours and
1000 t of cargo (with a 24 h allowance also present). -/
def pdC5 : ParsedData :=
  { arrival_datetime := none
  , departure_datetime := some ⟨2024, 3, 2, 4, 0⟩
  , nor_datetime := some ⟨2024, 3, 1, 8, 0⟩
  , laytime_hours := some 24
  , cargo_mt := some 1000 }

/-- C5 witness: 1000 t over 20 h gives 50 t/h and 1200 t/day. -/
theorem c5_cargo_rates_witness :
    isOkCalc (calculateLaytime pdC5) = true ∧
    (calcsOf (calculateLaytime pdC5)).cargo_rate_mt_per_hour = some 50 ∧
    (calcsOf (calculateLaytime pdC5)).cargo_rate_mt_per_day = some 1200 := by
  have h20 : hoursBetween ⟨2024, 3, 1, 8, 0⟩ ⟨2024, 3, 2, 4, 0⟩ = 20 := by
    norm_num [hoursBetween, toOffsetMinutes, toOrdinal, daysBeforeMonth,
      cumDaysBeforeMonth, isLeapYear]
  obtain ⟨hok, hph, hpd⟩ :=
    c5_cargo_rates pdC5 ⟨2024, 3, 1, 8, 0⟩ ⟨2024, 3, 2, 4, 0⟩ 1000
      rfl rfl rfl (by norm_num) (by rw [h20]; norm_num)
  refine ⟨hok, ?_, ?_⟩
  · rw [hph, h20]; norm_num
  · rw [hpd, h20]; norm_num

/-! ## Claim C6 -/

/-- Confidence formula as the spec words it: count of fields with at
least one candidate over the total field count (nine). -/
def specBaseConfidence (e : RawExtraction) : ℚ :=
  ((fieldLists e).countP (fun l => !l.isEmpty) : ℚ) / 9

/-- Confidence formula as the spec words it: count of the three
critical fields present, over three, times the 0.2 boost. -/
def specCriticalConfidence (e : RawExtraction) : ℚ :=
  (([e.vessel_name, e.arrival_time, e.departure_time].countP (fun l => !l.isEmpty) : ℚ))
    / 3 * (2 / 10)

/-- Rounding to two decimals keeps values of the unit interval inside
the unit interval. -/
theorem round2_nonneg_le_one (v : ℚ) (h0 : 0 ≤ v) (h1 : v ≤ 1) :
    0 ≤ round2 v ∧ round2 v ≤ 1 := by
  rw [round2, round_eq]
  constructor
  · apply div_nonneg _ (by norm_num)
    have h : (0 : ℤ) ≤ ⌊v * 100 + 1 / 2⌋ := Int.floor_nonneg.mpr (by linarith)
    exact_mod_cast h
  · rw [div_le_one (by norm_num)]
    have h : ⌊v * 100 + 1 / 2⌋ < 101 := by
      rw [Int.floor_lt]
      push_cast
      linarith
    have h100 : ⌊v * 100 + 1 / 2⌋ ≤ 100 := by omega
    exact_mod_cast h100

/-- C6: the confidence score equals the spec formula
`min(present/9 + critical/3 * 0.2, 1)` rounded to two decimals, is a
pure function of the raw extraction alone (it is one by type), always
lies in `[0, 1]`, is `0` on empty input text (where no pattern
matches), and is capped at `1` when all nine fields have candidates. -/
theorem c6_confidence_score :
    (∀ e : RawExtraction,
      calculateConfidenceScore e
        = round2 (min (specBaseConfidence e + specCriticalConfidence e) 1)) ∧
    (∀ e : RawExtraction, 0 ≤ calculateConfidenceScore e ∧ calculateConfidenceScore e ≤ 1) ∧
    (∀ o : Findall, (∀ p : String, o p "" = []) →
      calculateConfidenceScore (extractSofData o "") = 0) ∧
    (∀ e : RawExtraction, (∀ l ∈ fieldLists e, l ≠ []) → calculateConfidenceScore e = 1) := by
  have hform : ∀ e : RawExtraction,
      calculateConfidenceScore e
        = round2 (min (specBaseConfidence e + specCriticalConfidence e) 1) := by
    intro e
    simp only [calculateConfidenceScore, specBaseConfidence, specCriticalConfidence,
      List.countP_eq_length_filter]
    norm_num [fieldLists]
  have hbounds : ∀ e : RawExtraction,
      0 ≤ calculateConfidenceScore e ∧ calculateConfidenceScore e ≤ 1 := by
    intro e
    rw [hform e]
    apply round2_nonneg_le_one
    · refine le_min (add_nonneg ?_ ?_) zero_le_one
      · exact div_nonneg (by positivity) (by norm_num)
      · exact mul_nonneg (div_nonneg (by positivity) (by norm_num)) (by norm_num)
    · exact min_le_right _ 1
  refine ⟨hform, hbounds, ?_, ?_⟩
  · intro o ho
    have hemp : extractSofData o "" = ⟨[], [], [], [], [], [], [], [], []⟩ := by
      simp [extractSofData, extractField, gatherField, ho, dedupAux]
    rw [hemp]
    norm_num [calculateConfidenceScore, fieldLists, round2]
  · intro e he
    have hne : ∀ l ∈ fieldLists e, (!l.isEmpty) = true := by
      intro l hl
      simpa using he l hl
    have hfilter : (fieldLists e).filter (fun l => !l.isEmpty) = fieldLists e :=
      List.filter_eq_self.mpr hne
    have hcrit : [e.vessel_name, e.arrival_time, e.departure_time].filter
        (fun l => !l.isEmpty) = [e.vessel_name, e.arrival_time, e.departure_time] := by
      refine List.filter_eq_self.mpr ?_
      intro l hl
      apply hne
      simp only [List.mem_cons, List.not_mem_nil, or_false] at hl
      rcases hl with rfl | rfl | rfl <;> simp [fieldLists]
    simp only [calculateConfidenceScore, hfilter, hcrit]
    norm_num [fieldLists]
    rw [round2, show ((1 : ℚ) * 100) = ((100 : ℤ) : ℚ) by norm_num, round_intCast]
    norm_num

/-- A raw extraction with a candidate in every field. -/
def rawAllC6 : RawExtraction :=
  ⟨["a"], ["b"], ["c"], ["d"], ["e"], ["f"], ["g"], ["h"], ["i"]⟩

/-- C6 witness: the theorem applied to the no-match oracle on empty
text (score 0) and to an extraction with all nine fields present
(score capped at 1, inside the bounds). -/
theorem c6_confidence_score_witness :
    calculateConfidenceScore (extractSofData (fun _ _ => []) "") = 0 ∧
    calculateConfidenceScore rawAllC6 = 1 ∧
    0 ≤ calculateConfidenceScore rawAllC6 ∧ calculateConfidenceScore rawAllC6 ≤ 1 := by
  obtain ⟨_, h2, h3, h4⟩ := c6_confidence_score
  exact ⟨h3 (fun _ _ => []) (fun _ => rfl), h4 rawAllC6 (by decide),
    (h2 rawAllC6).1, (h2 rawAllC6).2⟩

/-! ## Claim C7 -/

/-- Character lists matched by `[0-9]+(?:\.[0-9]+)?`: digits, optionally
followed by a dot and more digits. -/
def IsNumeralChars (num : List Char) : Prop :=
  (num ≠ [] ∧ ∀ c ∈ num, c.isDigit = true) ∨
  (∃ ip fp, num = ip ++ '.' :: fp ∧ ip ≠ [] ∧ fp ≠ [] ∧
    (∀ c ∈ ip, c.isDigit = true) ∧ (∀ c ∈ fp, c.isDigit = true))

/-- A character equal to a given lowercase letter up to ASCII case. -/
def charCI (c lo : Char) : Prop := c = lo ∨ c = lo.toUpper

/-- Character lists that are a days unit (`days?`, any ASCII case). -/
def IsDayUnitChars (u : List Char) : Prop :=
  ∃ a b c, charCI a 'd' ∧ charCI b 'a' ∧ charCI c 'y' ∧
    (u = [a, b, c] ∨ ∃ s, charCI s 's' ∧ u = [a, b, c, s])

/-- Character lists that are an hours unit (`hours?`, any ASCII case). -/
def IsHourUnitChars (u : List Char) : Prop :=
  ∃ a b c d, charCI a 'h' ∧ charCI b 'o' ∧ charCI c 'u' ∧ charCI d 'r' ∧
    (u = [a, b, c, d] ∨ ∃ s, charCI s 's' ∧ u = [a, b, c, d, s])

/-- takeWhile/dropWhile split an append exactly at the boundary when the
predicate holds throughout the prefix and fails at the head of the
suffix. -/
theorem takeWhile_append_of_all (p : Char → Bool) (ds rest : List Char)
    (hds : ∀ c ∈ ds, p c = true)
    (hrest : ∀ r : Char, rest.head? = some r → p r = false) :
    (ds ++ rest).takeWhile p = ds ∧ (ds ++ rest).dropWhile p = rest := by
  induction ds with
  | nil =>
    cases rest with
    | nil => simp
    | cons r rs => simp [List.takeWhile_cons, List.dropWhile_cons, hrest r rfl]
  | cons d ds ih =>
    have hd : p d = true := hds d (List.mem_cons_self d ds)
    have ih' := ih (fun c hc => hds c (List.mem_cons_of_mem d hc))
    simp [List.takeWhile_cons, List.dropWhile_cons, hd, ih'.1, ih'.2]

/-- The greedy digit matcher consumes exactly a leading all-digit block
when the following character is not a digit. -/
theorem matchDigits1_exact (ds rest : List Char) (hne : ds ≠ [])
    (hds : ∀ c ∈ ds, c.isDigit = true)
    (hrest : ∀ r : Char, rest.head? = some r → r.isDigit = false) :
    matchDigits1 (ds ++ rest) = some (ds, rest) := by
  obtain ⟨ht, hd⟩ := takeWhile_append_of_all Char.isDigit ds rest hds hrest
  simp [matchDigits1, ht, hd, hne]

/-- The number-token matcher consumes exactly a numeral block when the
following character is neither a digit nor a dot. -/
theorem matchNumberTok_exact (num rest : List Char)
    (hnum : IsNumeralChars num)
    (hrest : ∀ r : Char, rest.head? = some r → (r.isDigit = false ∧ r ≠ '.')) :
    matchNumberTok (num ++ rest) = some (num, rest) := by
  rcases hnum with ⟨hne, hds⟩ | ⟨ip, fp, rfl, hipne, hfpne, hip, hfp⟩
  · rw [matchNumberTok, matchDigits1_exact num rest hne hds (fun r hr => (hrest r hr).1)]
    cases rest with
    | nil => rfl
    | cons r rs => simp [(hrest r rfl).2]
  · have h1 : matchDigits1 ((ip ++ '.' :: fp) ++ rest) = some (ip, '.' :: (fp ++ rest)) := by
      rw [List.append_assoc]
      exact matchDigits1_exact ip ('.' :: (fp ++ rest)) hipne hip
        (fun r hr => by rw [← Option.some.inj hr]; decide)
    have h2 : matchDigits1 (fp ++ rest) = some (fp, rest) :=
      matchDigits1_exact fp rest hfpne hfp (fun r hr => (hrest r hr).1)
    rw [matchNumberTok, h1]
    simp [h2]

/-- The `\s*` of the laytime pattern consumes exactly the space block
before a non-space character. -/
theorem dropWhile_replicate_space (n : Nat) (u : List Char)
    (hu : ∀ r : Char, u.head? = some r → isSpaceChar r = false) :
    (List.replicate n ' ' ++ u).dropWhile isSpaceChar = u := by
  induction n with
  | zero =>
    cases u with
    | nil => rfl
    | cons r rs => simp [List.dropWhile_cons, hu r rfl]
  | succ m ih => simp [List.replicate_succ, List.dropWhile_cons, isSpaceChar, ih]

/-- The search fails on digit-free input: every anchored attempt needs
at least one digit. -/
theorem laytimeSearch_none (cs : List Char) (h : ∀ c ∈ cs, c.isDigit = false) :
    laytimeSearch cs = none := by
  induction cs with
  | nil => rfl
  | cons c cs ih =>
    have htw : matchDigits1 (c :: cs) = none := by
      simp [matchDigits1, List.takeWhile_cons, h c (List.mem_cons_self c cs)]
    have hm : laytimeMatchAt (c :: cs) = none := by
      rw [laytimeMatchAt, matchNumberTok, htw]
    rw [laytimeSearch, hm, ih (fun x hx => h x (List.mem_cons_of_mem c hx))]

/-- Assembly of the laytime regex search on a numeral, spaces and a
unit: the leftmost attempt (position 0) succeeds and parses the whole
numeral. -/
theorem parseLaytime_numeral_unit (num u ur : List Char) (k : Nat) (isDay : Bool)
    (hnum : IsNumeralChars num)
    (hhead : ∀ r : Char, u.head? = some r →
      (isSpaceChar r = false ∧ r.isDigit = false ∧ r ≠ '.'))
    (hunit : matchUnitTok u = some (isDay, ur)) :
    parseLaytime ⟨num ++ (List.replicate (k + 1) ' ' ++ u)⟩
      = some (if isDay then floatValQ num * 24 else floatValQ num) := by
  have hrest : ∀ r : Char, (List.replicate (k + 1) ' ' ++ u).head? = some r →
      (r.isDigit = false ∧ r ≠ '.') := by
    intro r hr
    rw [List.replicate_succ, List.cons_append, List.head?_cons] at hr
    rw [← Option.some.inj hr]
    exact ⟨by decide, by decide⟩
  have hnumtok := matchNumberTok_exact num (List.replicate (k + 1) ' ' ++ u) hnum hrest
  have hdrop : (List.replicate (k + 1) ' ' ++ u).dropWhile isSpaceChar = u :=
    dropWhile_replicate_space (k + 1) u (fun r hr => (hhead r hr).1)
  have hmatch : laytimeMatchAt (num ++ (List.replicate (k + 1) ' ' ++ u))
      = some (num, isDay) := by
    simp only [laytimeMatchAt, hnumtok, hdrop, hunit]
  have hne : num ≠ [] := by
    rcases hnum with ⟨hne, _⟩ | ⟨ip, fp, rfl, hipne, _, _, _⟩
    · exact hne
    · simp
  cases hn : num with
  | nil => exact absurd hn hne
  | cons n0 ns =>
    subst hn
    rw [List.cons_append] at hmatch
    simp only [parseLaytime, List.cons_append, List.append_eq, laytimeSearch, hmatch]

/-- On a days unit the alternation rejects the hour branch and matches
the day branch (with its optional `s`); the unit's first character is a
letter, hence not whitespace, digit or dot. -/
theorem matchUnitTok_day_spec (u : List Char) (hu : IsDayUnitChars u) :
    matchUnitTok u = some (true, []) ∧
    ∀ r : Char, u.head? = some r →
      (isSpaceChar r = false ∧ r.isDigit = false ∧ r ≠ '.') := by
  obtain ⟨a, b, c, ha, hb, hc, hshape⟩ := hu
  rcases hshape with rfl | ⟨s, hs, rfl⟩
  · rcases ha with rfl | rfl <;> rcases hb with rfl | rfl <;> rcases hc with rfl | rfl <;>
      exact ⟨by decide, fun r hr => (Option.some.inj hr) ▸ (by decide)⟩
  · rcases ha with rfl | rfl <;> rcases hb with rfl | rfl <;> rcases hc with rfl | rfl <;>
      rcases hs with rfl | rfl <;>
      exact ⟨by decide, fun r hr => (Option.some.inj hr) ▸ (by decide)⟩

/-- On an hours unit the alternation matches the hour branch (with its
optional `s`). -/
theorem matchUnitTok_hour_spec (u : List Char) (hu : IsHourUnitChars u) :
    matchUnitTok u = some (false, []) ∧
    ∀ r : Char, u.head? = some r →
      (isSpaceChar r = false ∧ r.isDigit = false ∧ r ≠ '.') := by
  obtain ⟨a, b, c, d, ha, hb, hc, hd, hshape⟩ := hu
  rcases hshape with rfl | ⟨s, hs, rfl⟩
  · rcases ha with rfl | rfl <;> rcases hb with rfl | rfl <;> rcases hc with rfl | rfl <;>
      rcases hd with rfl | rfl <;>
      exact ⟨by decide, fun r hr => (Option.some.inj hr) ▸ (by decide)⟩
  · rcases ha with rfl | rfl <;> rcases hb with rfl | rfl <;> rcases hc with rfl | rfl <;>
      rcases hd with rfl | rfl <;> rcases hs with rfl | rfl <;>
      exact ⟨by decide, fun r hr => (Option.some.inj hr) ▸ (by decide)⟩

/-- C7: `_parse_laytime` on a numeral followed by (one or more spaces
and) a days unit returns the number times 24; with an hours unit it
returns the number unchanged; on digit-free strings the search fails
and the result is `none` — the function is total, so failure is always
the absent value, never an exception. -/
theorem c7_laytime_unit_conversion (num u : List Char) (k : Nat)
    (hnum : IsNumeralChars num) :
    (IsDayUnitChars u →
      parseLaytime ⟨num ++ (List.replicate (k + 1) ' ' ++ u)⟩
        = some (floatValQ num * 24)) ∧
    (IsHourUnitChars u →
      parseLaytime ⟨num ++ (List.replicate (k + 1) ' ' ++ u)⟩ = some (floatValQ num)) ∧
    (∀ s : String, (∀ c ∈ s.data, c.isDigit = false) → parseLaytime s = none) := by
  refine ⟨?_, ?_, fun s hs => by rw [parseLaytime, laytimeSearch_none s.data hs]⟩
  · intro hu
    obtain ⟨hunit, hhead⟩ := matchUnitTok_day_spec u hu
    simpa using parseLaytime_numeral_unit num u [] k true hnum hhead hunit
  · intro hu
    obtain ⟨hunit, hhead⟩ := matchUnitTok_hour_spec u hu
    simpa using parseLaytime_numeral_unit num u [] k false hnum hhead hunit

/-- C7 witness: the theorem applied to the claim's own instances —
`"3 days"` normalises to 72 hours, `"48 hours"` to 48 hours, and a
digit-free string to `none`. -/
theorem c7_laytime_unit_conversion_witness :
    parseLaytime ("3 days") = some 72 ∧
    parseLaytime ("48 hours") = some 48 ∧
    parseLaytime ("tbd") = none := by
  obtain ⟨hd1, -, -⟩ := c7_laytime_unit_conversion ['3'] ['d', 'a', 'y', 's'] 0
    (Or.inl ⟨by decide, by decide⟩)
  obtain ⟨-, hh1, hn1⟩ := c7_laytime_unit_conversion ['4', '8'] ['h', 'o', 'u', 'r', 's'] 0
    (Or.inl ⟨by decide, by decide⟩)
  have hdday : IsDayUnitChars ['d', 'a', 'y', 's'] :=
    ⟨'d', 'a', 'y', Or.inl rfl, Or.inl rfl, Or.inl rfl, Or.inr ⟨'s', Or.inl rfl, rfl⟩⟩
  have hhour : IsHourUnitChars ['h', 'o', 'u', 'r', 's'] :=
    ⟨'h', 'o', 'u', 'r', Or.inl rfl, Or.inl rfl, Or.inl rfl, Or.inl rfl,
      Or.inr ⟨'s', Or.inl rfl, rfl⟩⟩
  have h1 := hd1 hdday
  have h2 := hh1 hhour
  have hs1 : (⟨['3'] ++ (List.replicate 1 ' ' ++ ['d', 'a', 'y', 's'])⟩ : String)
      = "3 days" := by decide
  have hs2 : (⟨['4', '8'] ++ (List.replicate 1 ' ' ++ ['h', 'o', 'u', 'r', 's'])⟩ : String)
      = "48 hours" := by decide
  rw [hs1] at h1
  rw [hs2] at h2
  have hf1 : floatValQ ['3'] = 3 := by
    rw [floatValQ, show (['3'] : List Char).dropWhile Char.isDigit = [] from by decide,
      show (['3'] : List Char).takeWhile Char.isDigit = ['3'] from by decide,
      show natOfDigits ['3'] = 3 from by decide]
    norm_num
  have hf2 : floatValQ ['4', '8'] = 48 := by
    rw [floatValQ, show (['4', '8'] : List Char).dropWhile Char.isDigit = [] from by decide,
      show (['4', '8'] : List Char).takeWhile Char.isDigit = ['4', '8'] from by decide,
      show natOfDigits ['4', '8'] = 48 from by decide]
    norm_num
  refine ⟨?_, ?_, hn1 ("tbd") (by decide)⟩
  · rw [h1, hf1]; norm_num
  · rw [h2, hf2]

/-! ## Claim C8 -/

/-- Order-preserving first-occurrence deduplication as the spec words
it: fold left, appending each element not yet kept. -/
def specDedup (l : List String) : List String :=
  l.foldl (fun acc x => if x ∈ acc then acc else acc ++ [x]) []

/-- The source's seen-set loop computes exactly the fold-left
first-occurrence deduplication: the `seen` set always holds the same
members as the accumulated output. -/
theorem dedupAux_eq_foldl (xs : List String) : ∀ seen acc : List String,
    (∀ s : String, s ∈ seen ↔ s ∈ acc) →
    acc ++ dedupAux seen xs
      = xs.foldl (fun acc x => if x ∈ acc then acc else acc ++ [x]) acc := by
  induction xs with
  | nil => intro seen acc _; simp [dedupAux]
  | cons x xs ih =>
    intro seen acc h
    by_cases hx : x ∈ seen
    · have hx' : x ∈ acc := (h x).mp hx
      simp only [dedupAux, if_pos hx, List.foldl_cons, if_pos hx']
      exact ih seen acc h
    · have hx' : x ∉ acc := fun hc => hx ((h x).mpr hc)
      have h' : ∀ s : String, s ∈ x :: seen ↔ s ∈ acc ++ [x] := by
        intro s
        simp only [List.mem_cons, List.mem_append, List.mem_singleton]
        rw [h s]
        tauto
      simp only [dedupAux, if_neg hx, List.foldl_cons, if_neg hx']
      rw [show acc ++ x :: dedupAux (x :: seen) xs
          = (acc ++ [x]) ++ dedupAux (x :: seen) xs by simp]
      exact ih (x :: seen) (acc ++ [x]) h'

/-- The deduplicated output has no duplicates and avoids the seen set. -/
theorem dedupAux_nodup_disjoint (xs : List String) : ∀ seen : List String,
    (dedupAux seen xs).Nodup ∧ ∀ y ∈ dedupAux seen xs, y ∉ seen := by
  induction xs with
  | nil => intro seen; simp [dedupAux]
  | cons x xs ih =>
    intro seen
    by_cases hx : x ∈ seen
    · simpa [dedupAux, hx] using ih seen
    · obtain ⟨hnd, hni⟩ := ih (x :: seen)
      refine ⟨?_, ?_⟩
      · simp only [dedupAux, if_neg hx, List.nodup_cons]
        exact ⟨fun hc => hni x hc (by simp), hnd⟩
      · intro y hy
        simp only [dedupAux, if_neg hx, List.mem_cons] at hy
        rcases hy with rfl | hy
        · exact hx
        · exact fun hys => hni y hy (by simp [hys])

/-- The deduplicated output is a sublist of the input: kept candidates
appear in their original relative order. -/
theorem dedupAux_sublist_of (xs : List String) : ∀ seen : List String,
    List.Sublist (dedupAux seen xs) xs := by
  induction xs with
  | nil => intro seen; simp [dedupAux]
  | cons x xs ih =>
    intro seen
    by_cases hx : x ∈ seen
    · simp only [dedupAux, if_pos hx]
      exact (ih seen).trans (List.sublist_cons_self x xs)
    · simp only [dedupAux, if_neg hx]
      exact List.Sublist.cons₂ x (ih (x :: seen))

/-- Membership in the deduplicated output: exactly the input members
outside the seen set. -/
theorem dedupAux_mem (xs : List String) : ∀ (seen : List String) (y : String),
    y ∈ dedupAux seen xs ↔ (y ∈ xs ∧ y ∉ seen) := by
  induction xs with
  | nil => intro seen y; simp [dedupAux]
  | cons x xs ih =>
    intro seen y
    by_cases hx : x ∈ seen
    · rw [dedupAux, if_pos hx, ih]
      constructor
      · rintro ⟨h1, h2⟩; exact ⟨List.mem_cons_of_mem x h1, h2⟩
      · rintro ⟨h1, h2⟩
        rcases List.mem_cons.mp h1 with rfl | h1
        · exact absurd hx h2
        · exact ⟨h1, h2⟩
    · rw [dedupAux, if_neg hx]
      constructor
      · intro h1
        rcases List.mem_cons.mp h1 with rfl | h1
        · exact ⟨List.mem_cons_self y xs, hx⟩
        · obtain ⟨hy1, hy2⟩ := (ih (x :: seen) y).mp h1
          exact ⟨List.mem_cons_of_mem x hy1, fun hc => hy2 (List.mem_cons_of_mem x hc)⟩
      · rintro ⟨h1, h2⟩
        rcases List.mem_cons.mp h1 with rfl | h1
        · exact List.mem_cons_self y _
        · by_cases hyx : y = x
          · subst hyx; exact List.mem_cons_self y _
          · refine List.mem_cons_of_mem x ((ih (x :: seen) y).mpr ⟨h1, ?_⟩)
            intro hc
            rcases List.mem_cons.mp hc with h | h
            · exact hyx h
            · exact h2 h

/-- C8: for every oracle behaviour, text and pattern list, the
extracted candidate list has no two string-equal entries, equals the
first-occurrence deduplication of the gathered candidates (whose order
is pattern order, then match order, then capture-group order), is a
sublist of them (preserving relative order), keeps exactly their
members, and is empty — not an error — when there are no matches; the
full extractor applies this per-field construction to each of the nine
fields. -/
theorem c8_dedup_order :
    (∀ (o : Findall) (text : String) (pats : List String),
      (extractField o text pats).Nodup ∧
      extractField o text pats = specDedup (gatherField o text pats) ∧
      List.Sublist (extractField o text pats) (gatherField o text pats) ∧
      (∀ s : String, s ∈ extractField o text pats ↔ s ∈ gatherField o text pats) ∧
      (gatherField o text pats = [] → extractField o text pats = [])) ∧
    (∀ (o : Findall) (text : String),
      extractSofData o text =
        { vessel_name := extractField o text vesselNamePatterns
        , voyage_number := extractField o text voyageNumberPatterns
        , arrival_time := extractField o text arrivalTimePatterns
        , departure_time := extractField o text departureTimePatterns
        , nor_time := extractField o text norTimePatterns
        , laytime_allowed := extractField o text laytimeAllowedPatterns
        , cargo_quantity := extractField o text cargoQuantityPatterns
        , berth_info := extractField o text berthInfoPatterns
        , port_name := extractField o text portNamePatterns }) := by
  refine ⟨fun o text pats => ⟨?_, ?_, ?_, ?_, ?_⟩, fun o text => rfl⟩
  · exact (dedupAux_nodup_disjoint (gatherField o text pats) []).1
  · have h := dedupAux_eq_foldl (gatherField o text pats) [] [] (fun s => Iff.rfl)
    simpa [extractField, specDedup] using h
  · exact dedupAux_sublist_of (gatherField o text pats) []
  · intro s
    rw [extractField, dedupAux_mem]
    simp
  · intro h
    rw [extractField, h]
    rfl

/-- An oracle that reports, for every pattern, two equal single matches
(one needing a strip) and a distinct one. -/
def dupOracle : Findall := fun _ _ => [.single ("A"), .single ("A "), .single ("B")]

/-- C8 witness: the theorem applied to a no-match oracle (empty field,
no error) and, by direct evaluation, the duplicate-producing oracle
yields the deduplicated, order-preserving candidate list. -/
theorem c8_dedup_order_witness :
    gatherField (fun _ _ => []) "" vesselNamePatterns = [] ∧
    extractField (fun _ _ => []) "" vesselNamePatterns = [] ∧
    (extractField (fun _ _ => []) "" vesselNamePatterns).Nodup ∧
    extractField dupOracle "" vesselNamePatterns = ["A", "B"] := by
  obtain ⟨h1, _⟩ := c8_dedup_order
  obtain ⟨hnd, _, _, _, hemp⟩ := h1 (fun _ _ => []) "" vesselNamePatterns
  have hg : gatherField (fun _ _ => []) "" vesselNamePatterns = [] := by
    simp [gatherField, vesselNamePatterns]
  exact ⟨hg, hemp hg, hnd, by decide⟩

/-! ## Claim C9 -/

/-- C9: normalisation reads only the first candidate of each field —
two raw extractions whose candidate lists agree on their heads (for the
five normalised fields) normalise identically, so every later candidate
is ignored. -/
theorem c9_first_candidate_only (e e' : RawExtraction)
    (ha : e.arrival_time.head? = e'.arrival_time.head?)
    (hd : e.departure_time.head? = e'.departure_time.head?)
    (hn : e.nor_time.head? = e'.nor_time.head?)
    (hl : e.laytime_allowed.head? = e'.laytime_allowed.head?)
    (hc : e.cargo_quantity.head? = e'.cargo_quantity.head?) :
    parseDatesAndTimes e = parseDatesAndTimes e' := by
  simp [parseDatesAndTimes, ha, hd, hn, hl, hc]

/-- A raw extraction whose NOR field has two candidates. -/
def rawC9 : RawExtraction :=
  ⟨[], [], [], [], ["01/03/2024, 08:00", "05/03/2024, 09:30"], [], [], [], []⟩

/-- The same extraction with the second NOR candidate dropped (and
unrelated non-normalised fields changed). -/
def rawC9' : RawExtraction :=
  ⟨["MV Alpha"], ["V-12"], [], [], ["01/03/2024, 08:00"], [], [], [], []⟩

/-- C9 witness: the theorem applied to two concrete extractions that
agree only on the heads of the normalised fields — the extra second NOR
candidate is ignored and both normalise to the same record. -/
theorem c9_first_candidate_only_witness :
    parseDatesAndTimes rawC9 = parseDatesAndTimes rawC9' :=
  c9_first_candidate_only rawC9 rawC9' rfl rfl rfl rfl rfl

/-! ## Claim C10 -/

/-- Concrete input for C10's counterexample: NOR equal to departure,
allowance of exactly zero hours, 1000 t of cargo. -/
def pdC10err : ParsedData :=
  { arrival_datetime := none
  , departure_datetime := some ⟨2024, 3, 1, 8, 0⟩
  , nor_datetime := some ⟨2024, 3, 1, 8, 0⟩
  , laytime_hours := some 0
  , cargo_mt := some 1000 }

/-- C10, counterexample to the claim as stated: with NOR and departure
present and a zero allowance, the claim asserts `total_hours` is still
reported; but when a nonzero cargo quantity meets an elapsed time of
zero the whole calculation is replaced by the error dict, so no
`total_hours` is reported either. -/
theorem c10_zero_division_counterexample :
    calculateLaytime pdC10err = .error ("Laytime calculation failed: float division by zero") ∧
    (calcsOf (calculateLaytime pdC10err)).total_time_hours = none := by
  have h : calculateLaytime pdC10err
      = .error ("Laytime calculation failed: float division by zero") := by
    norm_num [calculateLaytime, pdC10err, hoursBetween, toOffsetMinutes, toOrdinal,
      daysBeforeMonth, cumDaysBeforeMonth, isLeapYear, emptyCalcs]
  exact ⟨h, by rw [h]; rfl⟩

/-- C10 (amended): a normalised allowance of exactly `0.0` is
indistinguishable from an absent one (the whole calculation is
literally equal to the one with the allowance removed), and likewise a
cargo quantity of `0` is indistinguishable from an absent one and never
produces cargo rates; when NOR and departure are present, the allowance
is zero and the calculation completes (which fails only in the
zero-division corner of the counterexample), `total_hours` is reported
and no `within_limit`/`exceeded` classification is produced. -/
theorem c10_zero_treated_absent :
    (∀ pd : ParsedData, pd.laytime_hours = some 0 →
      calculateLaytime pd = calculateLaytime { pd with laytime_hours := none }) ∧
    (∀ pd : ParsedData, pd.cargo_mt = some 0 →
      calculateLaytime pd = calculateLaytime { pd with cargo_mt := none }) ∧
    (∀ (pd : ParsedData) (nor dep : DateTime),
      pd.nor_datetime = some nor → pd.departure_datetime = some dep →
      pd.laytime_hours = some 0 → isOkCalc (calculateLaytime pd) = true →
      (calcsOf (calculateLaytime pd)).total_time_hours = some (hoursBetween nor dep) ∧
      (calcsOf (calculateLaytime pd)).laytime_status = none) ∧
    (∀ pd : ParsedData, pd.cargo_mt = some 0 →
      (calcsOf (calculateLaytime pd)).cargo_rate_mt_per_hour = none ∧
      (calcsOf (calculateLaytime pd)).cargo_rate_mt_per_day = none) := by
  refine ⟨?_, ?_, ?_, ?_⟩
  · intro pd hla
    cases hn : pd.nor_datetime <;> cases hd : pd.departure_datetime <;>
      simp [calculateLaytime, hla, hn, hd]
  · intro pd hcm
    simp [calculateLaytime, hcm]
  · intro pd nor dep hn hd hla hok
    cases hcm : pd.cargo_mt with
    | none =>
      constructor <;> simp [calculateLaytime, hn, hd, hla, hcm, calcsOf, emptyCalcs]
    | some cm =>
      by_cases hcm0 : cm = 0
      · constructor <;> simp [calculateLaytime, hn, hd, hla, hcm, hcm0, calcsOf, emptyCalcs]
      · by_cases hth : hoursBetween nor dep = 0
        · exfalso
          simp [calculateLaytime, hn, hd, hla, hcm, hcm0, hth, isOkCalc] at hok
        · constructor <;> simp [calculateLaytime, hn, hd, hla, hcm, hcm0, hth, calcsOf, emptyCalcs]
  · intro pd hcm
    cases hn : pd.nor_datetime with
    | none => constructor <;> simp [calculateLaytime, hn, hcm, calcsOf, emptyCalcs]
    | some nor =>
      cases hd : pd.departure_datetime with
      | none => constructor <;> simp [calculateLaytime, hn, hd, hcm, calcsOf, emptyCalcs]
      | some dep =>
        cases hlay : pd.laytime_hours with
        | none => constructor <;> simp [calculateLaytime, hn, hd, hlay, hcm, calcsOf, emptyCalcs]
        | some la =>
          by_cases hla0 : la = 0
          · constructor <;> simp [calculateLaytime, hn, hd, hlay, hla0, hcm, calcsOf, emptyCalcs]
          · by_cases hle : hoursBetween nor dep ≤ la
            · constructor <;>
                simp [calculateLaytime, hn, hd, hlay, hla0, hle, hcm, calcsOf, emptyCalcs]
            · constructor <;>
                simp [calculateLaytime, hn, hd, hlay, hla0, hle, hcm, calcsOf, emptyCalcs]

/-- Concrete input for C10's witness: 20 elapsed hours, zero allowance,
zero cargo. -/
def pdC10 : ParsedData :=
  { arrival_datetime := none
  , departure_datetime := some ⟨2024, 3, 2, 4, 0⟩
  , nor_datetime := some ⟨2024, 3, 1, 8, 0⟩
  , laytime_hours := some 0
  , cargo_mt := some 0 }

/-- C10 witness: the theorem applied to the concrete input — the zero
allowance and zero cargo behave exactly like absent ones, the total is
reported and no classification or cargo rate appears. -/
theorem c10_zero_treated_absent_witness :
    calculateLaytime pdC10 = calculateLaytime { pdC10 with laytime_hours := none } ∧
    calculateLaytime pdC10 = calculateLaytime { pdC10 with cargo_mt := none } ∧
    (calcsOf (calculateLaytime pdC10)).total_time_hours = some 20 ∧
    (calcsOf (calculateLaytime pdC10)).laytime_status = none ∧
    (calcsOf (calculateLaytime pdC10)).cargo_rate_mt_per_hour = none := by
  obtain ⟨h1, h2, h3, h4⟩ := c10_zero_treated_absent
  have h20 : hoursBetween ⟨2024, 3, 1, 8, 0⟩ ⟨2024, 3, 2, 4, 0⟩ = 20 := by
    norm_num [hoursBetween, toOffsetMinutes, toOrdinal, daysBeforeMonth,
      cumDaysBeforeMonth, isLeapYear]
  have hok : isOkCalc (calculateLaytime pdC10) = true := by
    simp [calculateLaytime, pdC10, isOkCalc]
  obtain ⟨ht, hs⟩ := h3 pdC10 ⟨2024, 3, 1, 8, 0⟩ ⟨2024, 3, 2, 4, 0⟩ rfl rfl rfl hok
  exact ⟨h1 pdC10 rfl, h2 pdC10 rfl, by rw [ht, h20], hs, (h4 pdC10 rfl).1⟩

end AquaBot
